import Mathlib

/-!
Shallow embedding of the bundle lifecycle of the `upgrade-tool` repository:
the bundle creator (`internal/bundle_creator.go`), the ephemeral registry
(`internal/registry.go`), the bundle loader (`internal/bundle_loader.go`) and
the bundle cleaner (`internal/bundle_cleaner.go`).  External collaborators
(the `oc` release query, the `skopeo` copy, the Kubernetes API, the CRI-O
service) are modelled as oracles that either succeed or fail; filesystem and
runtime-configuration state is carried explicitly.
-/

namespace UpgradeTool

/-- Value of the Go constant `labels.BundleLoaded` (`internal/labels/labels.go`). -/
def labelsBundleLoaded : String := "upgrade-tool/bundle-loaded"

/-- Value of the Go constant `labels.BundleCleaned` (`internal/labels/labels.go`). -/
def labelsBundleCleaned : String := "upgrade-tool/bundle-cleaned"

/-- Value of the Go constant `annotations.Progress` (`internal/annotations/annotations.go`). -/
def annotationsProgress : String := "upgrade-tool/progress"

/-- Value of the Go constant `bundleCreatorReleaseRepo` (`internal/bundle_creator.go`). -/
def bundleCreatorReleaseRepo : String := "quay.io/openshift-release-dev/ocp-release"

/-- Embedding of the `Metadata` struct (`internal/metadata.go`): version, architecture,
digest-pinned release reference and the list of image references. -/
structure Metadata where
  version : String
  arch : String
  release : String
  images : List String
  deriving Repr, DecidableEq

/-! A Go `map[string]string` is modelled as an association list whose order is the
(indeterminate) order in which one full iteration of the map visits its entries.
Distinct runs of the program may observe distinct orders, so theorems quantify over
the order and counterexamples may pick any order. -/

/-- Model of `golang.org/x/exp/maps.Values`: the values of the map in iteration order. -/
def mapsValues (m : List (String × String)) : List String := m.map Prod.snd

/-- Model of `golang.org/x/exp/maps.Keys`: the keys of the map in iteration order. -/
def mapsKeys (m : List (String × String)) : List String := m.map Prod.fst

/-- Model of Go map indexing `m[k]`: the value stored at `k`, or the zero value `""`. -/
def goMapGet (m : List (String × String)) (k : String) : String :=
  match m.find? (fun p => decide (p.1 = k)) with
  | some p => p.2
  | none => ""

/-- Lexicographic comparison of character lists by scalar value, the order Go uses to
compare strings. -/
def charListLe : List Char → List Char → Bool
  | [], _ => true
  | _ :: _, [] => false
  | a :: as, b :: bs =>
    if a.toNat < b.toNat then true
    else if b.toNat < a.toNat then false
    else charListLe as bs

/-- Lexicographic string order, as used by Go's `slices.Sort` on `[]string`. -/
def strLe (a b : String) : Prop := charListLe a.data b.data = true

instance : DecidableRel strLe := fun a b => by
  unfold strLe
  infer_instance

instance : IsTotal String strLe := by
  have key : ∀ (x y : Char) (xs ys : List Char),
      charListLe (x :: xs) (y :: ys) = true ↔
        x.toNat < y.toNat ∨ (x.toNat = y.toNat ∧ charListLe xs ys = true) := by
    intro x y xs ys
    simp only [charListLe]
    split
    · simp_all
    · split
      · simp_all
        omega
      · have : x.toNat = y.toNat := by omega
        simp_all
  constructor
  intro a b
  unfold strLe
  induction a.data generalizing b with
  | nil => cases b.data <;> simp [charListLe]
  | cons x xs ih =>
    cases hb : b.data with
    | nil => simp [charListLe]
    | cons y ys =>
      rw [key, key]
      rcases ih (String.mk ys) with h | h
      · rcases Nat.lt_trichotomy x.toNat y.toNat with hc | hc | hc
        · exact Or.inl (Or.inl hc)
        · exact Or.inl (Or.inr ⟨hc, h⟩)
        · exact Or.inr (Or.inl hc)
      · rcases Nat.lt_trichotomy x.toNat y.toNat with hc | hc | hc
        · exact Or.inl (Or.inl hc)
        · exact Or.inr (Or.inr ⟨hc.symm, h⟩)
        · exact Or.inr (Or.inl hc)

instance : IsTrans String strLe := by
  have key : ∀ (x y : Char) (xs ys : List Char),
      charListLe (x :: xs) (y :: ys) = true ↔
        x.toNat < y.toNat ∨ (x.toNat = y.toNat ∧ charListLe xs ys = true) := by
    intro x y xs ys
    simp only [charListLe]
    split
    · simp_all
    · split
      · simp_all
        omega
      · have : x.toNat = y.toNat := by omega
        simp_all
  constructor
  intro a b c
  unfold strLe
  induction a.data generalizing b c with
  | nil => simp [charListLe]
  | cons x xs ih =>
    cases hb : b.data with
    | nil => simp [charListLe]
    | cons y ys =>
      cases hc : c.data with
      | nil => simp [charListLe]
      | cons z zs =>
        rw [key, key, key]
        rintro (h1 | ⟨h1e, h1r⟩) (h2 | ⟨h2e, h2r⟩)
        · exact Or.inl (h1.trans h2)
        · exact Or.inl (h2e ▸ h1)
        · exact Or.inl (h1e ▸ h2)
        · exact Or.inr ⟨h1e.trans h2e, ih (String.mk ys) (String.mk zs) h1r h2r⟩

/-- Model of `golang.org/x/exp/slices.Sort` on strings: ascending sort by the
lexicographic string order. -/
def slicesSort (l : List String) : List String :=
  l.insertionSort strLe

/-- Parsed form of a docker image reference, as produced by the third-party
`distribution/reference` library used by `BundleCreator.dstRef`. -/
structure ParsedName where
  domain : String
  path : String
  tag : Option String
  digestHex : String
  hasDigest : Bool
  deriving Repr, DecidableEq

/-- Splitter for character lists: cuts at every occurrence of `c`, like splitting a Go
string at a one-character separator. -/
def splitOnCharAux (c : Char) : List Char → List Char → List (List Char)
  | [], acc => [acc.reverse]
  | x :: xs, acc =>
    if x = c then acc.reverse :: splitOnCharAux c xs []
    else splitOnCharAux c xs (x :: acc)

/-- Splits a string at every occurrence of the character `c`. -/
def splitOnChar (c : Char) (s : String) : List String :=
  (splitOnCharAux c s.data []).map String.mk

/-- Joins strings with a separator, the inverse of `splitOnChar`. -/
def joinWith (sep : String) : List String → String
  | [] => ""
  | [x] => x
  | x :: y :: xs => x ++ sep ++ joinWith sep (y :: xs)

/-- Tells whether the string `s` contains the character `c`. -/
def strContains (s : String) (c : Char) : Bool :=
  s.data.any (fun x => decide (x = c))

/-- Splits a reference at the first `@`, separating the name from the digest part.
Model of the digest handling of the `distribution/reference` grammar. -/
def splitAtSign (s : String) : String × Option String :=
  match splitOnChar '@' s with
  | [x] => (x, none)
  | x :: rest => (x, some (joinWith "@" rest))
  | [] => (s, none)

/-- Hex part of a digest string `alg:hex`.  Model of `Digest.Hex` of the third-party
digest library: everything after the first `:`. -/
def digestHexOf (d : String) : String :=
  match splitOnChar ':' d with
  | [_] => ""
  | _ :: rest => joinWith ":" rest
  | [] => ""

/-- Splits the leading domain component of a reference.  Model of the
`distribution/reference` rule: the first `/`-separated component is a domain when it
contains a dot or a colon or is `localhost`; `ParseNamed` rejects names without one. -/
def splitDomain (s : String) : Option (String × String) :=
  match splitOnChar '/' s with
  | d :: rest =>
    if rest.length > 0 && (strContains d '.' || strContains d ':' || decide (d = "localhost"))
    then some (d, joinWith "/" rest)
    else none
  | [] => none

/-- Splits a trailing `:tag` from a domain-less remainder.  Model of the
`distribution/reference` tag rule for well-formed references (a path contains no `:`). -/
def splitTag (r : String) : String × Option String :=
  match splitOnChar ':' r with
  | [x, t] => (x, some t)
  | _ => (r, none)

/-- Model of `dreference.ParseNamed` from the third-party `distribution/reference`
library, restricted to well-formed named references `domain/path[:tag][@alg:hex]`. -/
def parseNamed (s : String) : Option ParsedName :=
  let base := (splitAtSign s).1
  let dig := (splitAtSign s).2
  match splitDomain base with
  | none => none
  | some (d, r) =>
    let pt := splitTag r
    some { domain := d, path := pt.1, tag := pt.2,
           digestHex := match dig with | some x => digestHexOf x | none => ""
           hasDigest := match dig with | some _ => true | none => false }

/-- Embedding of `BundleCreator.dstRef` (`internal/bundle_creator.go` lines 393-411):
rewrites a source reference to point at the local registry, using the path of the
parsed reference and its tag, or the digest hex when it carries no tag. -/
def dstRef (addr : String) (src : String) : Option String :=
  match parseNamed src with
  | none => none
  | some ref =>
    let tag :=
      match ref.tag with
      | some t => t
      | none => if ref.hasDigest then ref.digestHex else ""
    some (addr ++ "/" ++ ref.path ++ ":" ++ tag)

/-- Oracles for one `BundleCreator.Run` invocation: results of the external
collaborators, in program order.  `ocInfo` is the digest and the `(tag, reference)`
pairs (in map iteration order) produced by the `oc adm release info` query plus the
`jq` extraction; `copyOk` tells whether the `skopeo copy` of a given source
reference succeeds. -/
structure CreatorEnv where
  cacheDirOk : Bool
  mkdirOk : Bool
  ocInfo : Except String (String × List (String × String))
  regStartOk : Bool
  regAddr : String
  certsDirOk : Bool
  certWriteOk : Bool
  copyOk : String → Bool
  regStopOk : Bool
  writeMetaOk : Bool
  tarOk : Bool
  digestWriteOk : Bool
  manifestOk : Bool

/-- Embedding of `BundleCreator.findImages` (`internal/bundle_creator.go` lines 275-334):
queries the release, pins the release reference to the returned digest and collects the
`(tag, reference)` pairs into a map. -/
def findImages (env : CreatorEnv) : Except String (String × List (String × String)) :=
  match env.ocInfo with
  | .error e => .error e
  | .ok (digest, tags) => .ok (bundleCreatorReleaseRepo ++ "@" ++ digest, tags)

instance : DecidableEq (Except String Unit) := fun a b =>
  match a, b with
  | .ok (), .ok () => isTrue rfl
  | .error x, .error y =>
    if h : x = y then isTrue (by simp [h]) else isFalse (by simp [h])
  | .ok (), .error _ => isFalse (by simp)
  | .error _, .ok () => isFalse (by simp)

/-- Result of the payload-image copy loop: the `(source, destination)` copies attempted
in order, and the final result. -/
structure CopyOut where
  copies : List (String × String)
  res : Except String Unit
  deriving Repr, DecidableEq

/-- Embedding of the payload loop of `BundleCreator.downloadImages` (lines 372-389):
visits the given tags in order, rewrites each source reference with `dstRef` and copies
it, aborting on the first failure. -/
def downloadPayload (copyOk : String → Bool) (addr : String)
    (images : List (String × String)) : List String → CopyOut
  | [] => ⟨[], .ok ()⟩
  | t :: rest =>
    let ref := goMapGet images t
    match dstRef addr ref with
    | none => ⟨[], .error ("invalid reference " ++ ref)⟩
    | some dst =>
      if copyOk ref then
        let o := downloadPayload copyOk addr images rest
        ⟨(ref, dst) :: o.copies, o.res⟩
      else
        ⟨[(ref, dst)], .error ("failed to copy " ++ ref)⟩

/-- Embedding of `BundleCreator.downloadImages` (`internal/bundle_creator.go` lines
336-391): stages the registry certificate, copies the release image, then copies every
payload image in ascending tag order. -/
def downloadImages (env : CreatorEnv) (release : String)
    (images : List (String × String)) : CopyOut :=
  if !env.certsDirOk then ⟨[], .error "failed to create certs dir"⟩ else
  if !env.certWriteOk then ⟨[], .error "failed to write cert"⟩ else
  match dstRef env.regAddr release with
  | none => ⟨[], .error ("invalid reference " ++ release)⟩
  | some dst =>
    if env.copyOk release then
      let o := downloadPayload env.copyOk env.regAddr images
        (slicesSort (mapsKeys images))
      ⟨(release, dst) :: o.copies, o.res⟩
    else
      ⟨[(release, dst)], .error ("failed to copy " ++ release)⟩

/-- Observable outcome of one `BundleCreator.Run`: final result, the metadata record
written to `metadata.json` (when the run got that far) and the copies attempted. -/
structure CreatorOut where
  res : Except String Unit
  metadataWritten : Option Metadata
  downloads : List (String × String)
  deriving Repr, DecidableEq

/-- Embedding of `BundleCreator.Run` (`internal/bundle_creator.go` lines 159-259):
cache directory, release discovery, registry start, image download, registry stop,
metadata write (`Images` is `maps.Values` of the discovered map, in map iteration
order), archive, digest and manifest — aborting on the first failure. -/
def creatorRun (env : CreatorEnv) (version arch : String) : CreatorOut :=
  if !env.cacheDirOk then ⟨.error "failed to find user cache directory", none, []⟩ else
  if !env.mkdirOk then ⟨.error "failed to create bundle directory", none, []⟩ else
  match findImages env with
  | .error e => ⟨.error e, none, []⟩
  | .ok (release, images) =>
    if !env.regStartOk then ⟨.error "failed to start registry", none, []⟩ else
    let dl := downloadImages env release images
    match dl.res with
    | .error e => ⟨.error e, none, dl.copies⟩
    | .ok () =>
      if !env.regStopOk then ⟨.error "failed to stop registry", none, dl.copies⟩ else
      let md : Metadata :=
        { version := version, arch := arch, release := release,
          images := mapsValues images }
      if !env.writeMetaOk then ⟨.error "failed to write metadata", none, dl.copies⟩ else
      if !env.tarOk then ⟨.error "failed to write bundle", some md, dl.copies⟩ else
      if !env.digestWriteOk then ⟨.error "failed to write digest", some md, dl.copies⟩ else
      if !env.manifestOk then ⟨.error "failed to write manifest", some md, dl.copies⟩ else
      ⟨.ok (), some md, dl.copies⟩

/-- Destination references, as claimed by the specification, for the discovered
`(tag, source-reference)` pairs: each source reference rewritten by `dstRef`. -/
def destRefs (addr : String) (images : List (String × String)) : List String :=
  images.filterMap (fun p => dstRef addr p.2)

/-- Model of `filepath.Join` for cleaned, non-empty path components. -/
def filepathJoin (a b : String) : String := a ++ "/" ++ b

/-- Tells whether the path `p` is the directory `dir` or lies underneath it. -/
def pathWithin (dir p : String) : Bool :=
  decide (p = dir) || List.isPrefixOf (dir ++ "/").data p.data

/-- Model of `os.RemoveAll` on a filesystem modelled as the list of existing paths:
removes the path and everything underneath it, succeeding also when nothing exists. -/
def removeAllFS (dir : String) (fs : List String) : List String :=
  fs.filter (fun p => !pathWithin dir p)

/-- Embedding of the `Registry` object (`internal/registry.go`): the configured address,
the storage root, the private temporary directory created by `Build` for the TLS
material, and whether `Start` got far enough to create the HTTP server. -/
structure Registry where
  address : String
  root : String
  tmp : String
  hasServer : Bool
  deriving Repr, DecidableEq

/-- Embedding of a successful `RegistryBuilder.Build` (`internal/registry.go` lines
99-147): the private temporary directory exists, and no server exists yet. -/
def registryBuild (address root tmp : String) : Registry :=
  { address := address, root := root, tmp := tmp, hasServer := false }

/-- Oracles for one `Registry.Start` call: whether writing the certificate file, writing
the key file and binding the listener succeed. -/
structure RegistryStartEnv where
  writeCertOk : Bool
  writeKeyOk : Bool
  listenOk : Bool

/-- Embedding of `Registry.Start` (`internal/registry.go` lines 216-267): writes the TLS
certificate and key into the private temporary directory, binds the listener, and only
then creates the HTTP server; any earlier failure returns with no server created. -/
def registryStart (env : RegistryStartEnv) (r : Registry) (fs : List String) :
    Registry × List String × Except String Unit :=
  if !env.writeCertOk then (r, fs, .error "failed to write certificate file") else
  let fs1 := (filepathJoin r.tmp "tls.crt") :: fs
  if !env.writeKeyOk then (r, fs1, .error "failed to write key file") else
  let fs2 := (filepathJoin r.tmp "tls.key") :: fs1
  if !env.listenOk then (r, fs2, .error "failed to bind listener") else
  ({ r with hasServer := true }, fs2, .ok ())

/-- Embedding of `Registry.Stop` (`internal/registry.go` lines 270-284): shuts the HTTP
server down and, only when that succeeded, removes the private temporary directory.  A
shutdown failure — including a call on a registry whose `Start` never created the
server — returns before the removal is reached. -/
def registryStop (shutdownOk : Bool) (r : Registry) (fs : List String) :
    List String × Except String Unit :=
  if !r.hasServer then (fs, .error "shutdown of nil server")
  else if !shutdownOk then (fs, .error "failed to shutdown server")
  else (removeAllFS r.tmp fs, .ok ())

/-- Lowercase hexadecimal digits, in order: Go's `hextable` constant of
`encoding/hex`. -/
def hexDigits : List Char := ("0123456789abcdef" : String).data

/-- The `n`-th lowercase hexadecimal digit. -/
def hexDigit (n : Nat) : Char := hexDigits.getD n '0'

/-- The two lowercase hexadecimal digits of one byte. -/
def hexEncodeByte (b : Nat) : List Char := [hexDigit (b / 16), hexDigit (b % 16)]

/-- Model of `hex.EncodeToString` from Go's `encoding/hex`: two lowercase hexadecimal
digits per byte. -/
def hexEncodeToString (bs : List Nat) : String :=
  String.mk ((bs.map hexEncodeByte).flatten)

/-- Numeric value of a lowercase hexadecimal digit. -/
def hexVal (c : Char) : Nat := hexDigits.indexOf c

/-- Decodes pairs of hexadecimal digits back into bytes. -/
def decodeHexPairs : List Char → List Nat
  | a :: b :: rest => (16 * hexVal a + hexVal b) :: decodeHexPairs rest
  | _ => []

/-- Decodes a lowercase hexadecimal string back into its bytes. -/
def hexDecode (s : String) : List Nat := decodeHexPairs s.data

/-- Model of `filepath.Base` for paths that do not end in a separator: the part after
the last `/`. -/
def filepathBase (p : String) : String :=
  String.mk ((p.data.reverse.takeWhile (fun c => decide (c ≠ '/'))).reverse)

/-- Embedding of `BundleCreator.outputBase` (`internal/bundle_creator.go` lines
553-556). -/
def outputBase (outputDir version arch : String) : String :=
  filepathJoin outputDir ("upgrade-" ++ version ++ "-" ++ arch)

/-- Embedding of `BundleCreator.bundleFile` (`internal/bundle_creator.go` lines
541-543). -/
def bundleFile (outputDir version arch : String) : String :=
  outputBase outputDir version arch ++ ".tar"

/-- Embedding of the contents `BundleCreator.writeDigest` (`internal/bundle_creator.go`
lines 484-526) writes to the digest sidecar file: the hexadecimal encoding of the
SHA-256 hash of the archive bytes — the hash itself is computed by Go's `crypto/sha256`,
taken here as the abstract byte list `hash` — followed by two spaces, the base name of
the archive file and a newline. -/
def writeDigestContent (hash : List Nat) (bundlePath : String) : String :=
  hexEncodeToString hash ++ "  " ++ filepathBase bundlePath ++ "\n"

/-- Modelled from the spec: the runtime-configuration state owned by the Runtime
Configurator (the `CRIOTool` object, whose implementation file is not among the
sources): at most one pin entry recording a set of references, and at most one mirror
entry pointing a set of references at a registry address (§4.5, §3). -/
structure CrioState where
  pin : Option (List String)
  mirror : Option (String × List String)
  deriving Repr, DecidableEq

/-- Modelled from the spec: `CRIOTool.CreatePinConf` — create pin entries for a set of
references (§4.5). -/
def createPinConf (refs : List String) (s : CrioState) : CrioState :=
  { s with pin := some refs }

/-- Modelled from the spec: `CRIOTool.CreateMirrorConf` — create a mirror entry pointing
a set of references at a given registry address (§4.5). -/
def createMirrorConf (addr : String) (refs : List String) (s : CrioState) : CrioState :=
  { s with mirror := some (addr, refs) }

/-- Modelled from the spec: `CRIOTool.RemovePinConf` — remove the pin entries; removing
an absent entry succeeds, since the Cleaner protocol is fully idempotent (§4.4, §4.5). -/
def removePinConf (s : CrioState) : CrioState :=
  { s with pin := none }

/-- Modelled from the spec: `CRIOTool.RemoveMirrorConf` — remove the mirror entry;
removing an absent entry succeeds, since the Cleaner protocol is fully idempotent
(§4.4, §4.5). -/
def removeMirrorConf (s : CrioState) : CrioState :=
  { s with mirror := none }

/-- Observable node-local state touched by the loader and the cleaner: the filesystem
(as the list of existing paths), the runtime configuration, and the node coordination
record's labels and annotations. -/
structure World where
  fs : List String
  crio : CrioState
  nodeLabels : List (String × String)
  nodeAnn : List (String × String)
  deriving Repr, DecidableEq

/-- Merge-patch of one key of a string map: replaces the value when the key is present
and appends the entry otherwise. -/
def setEntry (m : List (String × String)) (k v : String) : List (String × String) :=
  if m.any (fun p => decide (p.1 = k)) then
    m.map (fun p => if p.1 = k then (k, v) else p)
  else m ++ [(k, v)]

/-- Structured form of the progress messages `BundleLoader.populateCRIO` renders:
the fixed release message, or the k-of-n payload counter message. -/
inductive PEvent where
  | releasePulled
  | pulled (k n : Nat)
  deriving Repr, DecidableEq

/-- The message text `BundleLoader.populateCRIO` renders for a progress event
(`internal/bundle_loader.go` lines 253 and 261). -/
def renderEvent : PEvent → String
  | .releasePulled => "Pulled release image"
  | .pulled k n => "Pulled " ++ toString k ++ " of " ++ toString n ++ " images"

/-- The payload counter carried by a progress event, when it has one. -/
def counterOf : PEvent → Option Nat
  | .releasePulled => none
  | .pulled k _ => some k

/-- External operations a loader or cleaner run attempts, in order. -/
inductive LOp where
  | regStart
  | pinCreate (refs : List String)
  | mirrorCreate (addr : String) (refs : List String)
  | reload
  | pull (ref : String)
  | mirrorRemove
  | pinRemove
  | regStop
  | removeDir (dir : String)
  | nodeGet
  | labelPatch (key : String)
  | annPatch (text : String)
  deriving Repr, DecidableEq

/-- Result of one phase of a loader or cleaner run: the world it leaves behind, the
operations it attempted, the progress events it emitted, and its result. -/
structure StepOut where
  w : World
  ops : List LOp
  events : List PEvent
  res : Except String Unit
  deriving Repr, DecidableEq

/-- Sequencing of two phases, mirroring the Go pattern `if err != nil return err`:
the second phase runs only when the first succeeded; traces are concatenated. -/
def seqStep (a : StepOut) (f : World → StepOut) : StepOut :=
  match a.res with
  | .error e => ⟨a.w, a.ops, a.events, .error e⟩
  | .ok () =>
    let b := f a.w
    ⟨b.w, a.ops ++ b.ops, a.events ++ b.events, b.res⟩

/-- Embedding of `BundleLoader.absolutePath` (`internal/bundle_loader.go` lines
212-218) and the identical `BundleCleaner.absolutePath`. -/
def absolutePath (rootDir p : String) : String :=
  if rootDir = "" then p else filepathJoin rootDir p

/-- Embedding of `BundleLoader.reportProgress` (`internal/bundle_loader.go` lines
352-396): renders the message and merge-patches the progress annotation; a patch
failure is logged and swallowed, never propagated. -/
def reportProgress (annOk : String → Bool) (ev : PEvent) (w : World) : World :=
  if annOk (renderEvent ev) then
    { w with nodeAnn := setEntry w.nodeAnn annotationsProgress (renderEvent ev) }
  else w

/-- Embedding of the payload loop of `BundleLoader.populateCRIO`
(`internal/bundle_loader.go` lines 256-262): pulls each reference in order, aborting on
the first failure; after each successful pull it reports `Pulled k of n images`. -/
def pullLoop (pullOk annOk : String → Bool) (n i : Nat) (refs : List String)
    (w : World) : StepOut :=
  match refs with
  | [] => ⟨w, [], [], .ok ()⟩
  | r :: rest =>
    if pullOk r then
      let ev := PEvent.pulled (i + 1) n
      let w1 := reportProgress annOk ev w
      let o := pullLoop pullOk annOk n (i + 1) rest w1
      ⟨o.w, .pull r :: .annPatch (renderEvent ev) :: o.ops, ev :: o.events, o.res⟩
    else ⟨w, [.pull r], [], .error ("failed to pull " ++ r)⟩

/-- Embedding of `BundleLoader.populateCRIO` (`internal/bundle_loader.go` lines
247-264): pulls the release image, reports `Pulled release image`, then pulls the
payload images in the bundle's listed order with k-of-n progress reports. -/
def populateCrio (pullOk annOk : String → Bool) (release : String)
    (refs : List String) (w : World) : StepOut :=
  if pullOk release then
    let w1 := reportProgress annOk .releasePulled w
    let o := pullLoop pullOk annOk refs.length 0 refs w1
    ⟨o.w, .pull release :: .annPatch (renderEvent .releasePulled) :: o.ops,
      .releasePulled :: o.events, o.res⟩
  else ⟨w, [.pull release], [], .error ("failed to pull " ++ release)⟩

/-- Embedding of `BundleLoader.configureCRIO` (`internal/bundle_loader.go` lines
220-233): creates the pin entries, creates the mirror entry, reloads the service;
aborts on the first failure. -/
def configureCrio (pinOk mirrorOk reloadOk : Bool) (addr : String)
    (refs : List String) (w : World) : StepOut :=
  if !pinOk then ⟨w, [.pinCreate refs], [], .error "failed to create pin conf"⟩ else
  let w1 := { w with crio := createPinConf refs w.crio }
  if !mirrorOk then
    ⟨w1, [.pinCreate refs, .mirrorCreate addr refs], [],
      .error "failed to create mirror conf"⟩
  else
  let w2 := { w1 with crio := createMirrorConf addr refs w1.crio }
  if !reloadOk then
    ⟨w2, [.pinCreate refs, .mirrorCreate addr refs, .reload], [],
      .error "failed to reload service"⟩
  else ⟨w2, [.pinCreate refs, .mirrorCreate addr refs, .reload], [], .ok ()⟩

/-- Embedding of `BundleLoader.deconfigureCRIO` (`internal/bundle_loader.go` lines
235-245): removes only the mirror entry — the pin entries are deliberately kept — and
reloads the service. -/
def deconfigureCrio (removeMirrorOk reloadOk : Bool) (w : World) : StepOut :=
  if !removeMirrorOk then
    ⟨w, [.mirrorRemove], [], .error "failed to remove mirror conf"⟩
  else
  let w1 := { w with crio := removeMirrorConf w.crio }
  if !reloadOk then
    ⟨w1, [.mirrorRemove, .reload], [], .error "failed to reload service"⟩
  else ⟨w1, [.mirrorRemove, .reload], [], .ok ()⟩

/-- One registry stop step inside a loader run, as an opaque success or failure. -/
def regStopStep (ok : Bool) (w : World) : StepOut :=
  if ok then ⟨w, [.regStop], [], .ok ()⟩
  else ⟨w, [.regStop], [], .error "failed to stop registry"⟩

/-- Embedding of `BundleLoader.deleteBundle` (`internal/bundle_loader.go` lines
309-320) and of each `os.RemoveAll` of `BundleCleaner.cleanBundleDir`. -/
def deleteBundleStep (ok : Bool) (dir : String) (w : World) : StepOut :=
  if ok then ⟨{ w with fs := removeAllFS dir w.fs }, [.removeDir dir], [], .ok ()⟩
  else ⟨w, [.removeDir dir], [], .error "failed to remove directory"⟩

/-- Embedding of `BundleLoader.writeResult` (`internal/bundle_loader.go` lines 322-350)
and the identical `BundleCleaner.writeResult`: fetches the node and merge-patches the
given label to `"true"`; either failure aborts. -/
def writeResultStep (label : String) (getOk patchOk : Bool) (w : World) : StepOut :=
  if !getOk then ⟨w, [.nodeGet], [], .error "failed to get node"⟩ else
  if !patchOk then ⟨w, [.nodeGet, .labelPatch label], [], .error "failed to patch node"⟩
  else
    ⟨{ w with nodeLabels := setEntry w.nodeLabels label "true" },
      [.nodeGet, .labelPatch label], [], .ok ()⟩

/-- Oracles and configuration for one `BundleLoader.Run`: the builder fields `rootDir`
and `bundleDir`, plus the outcome of every external operation the run performs, in
program order. -/
structure LoaderEnv where
  rootDir : String
  bundleDir : String
  statErr : Option String
  readMeta : Except String Metadata
  regStartOk : Bool
  regAddr : String
  pinOk : Bool
  mirrorOk : Bool
  reload1Ok : Bool
  pullOk : String → Bool
  annOk : String → Bool
  removeMirrorOk : Bool
  reload2Ok : Bool
  regStopOk : Bool
  removeDirOk : Bool
  getNodeOk : Bool
  patchOk : Bool

/-- Embedding of `BundleLoader.checkBundleDir` (`internal/bundle_loader.go` lines
201-210): a `NotExist` stat result reports absence without an error; any other stat
failure reports the error (with `exists` true, which `Run` never reads). -/
def checkBundleDir (env : LoaderEnv) (fs : List String) : Except String Bool :=
  match env.statErr with
  | some e => .error e
  | none => .ok (decide (absolutePath env.rootDir env.bundleDir ∈ fs))

/-- Embedding of `BundleLoader.Run` (`internal/bundle_loader.go` lines 141-199):
bundle-directory check, metadata read, registry start, runtime configuration, image
pulls with progress, mirror removal, registry stop, bundle deletion, final label —
aborting on the first failure of any of these. -/
def loaderRun (env : LoaderEnv) (w : World) : StepOut :=
  match checkBundleDir env w.fs with
  | .error e => ⟨w, [], [], .error e⟩
  | .ok ex =>
    if !ex then
      ⟨w, [], [], .error ("bundle directory " ++ env.bundleDir ++ " does not exist")⟩
    else
      match env.readMeta with
      | .error e => ⟨w, [], [], .error e⟩
      | .ok md =>
        if !env.regStartOk then ⟨w, [.regStart], [], .error "failed to start registry"⟩
        else
          seqStep ⟨w, [.regStart], [], .ok ()⟩ (fun w0 =>
          seqStep (configureCrio env.pinOk env.mirrorOk env.reload1Ok env.regAddr
              md.images w0) (fun w1 =>
          seqStep (populateCrio env.pullOk env.annOk md.release md.images w1) (fun w2 =>
          seqStep (deconfigureCrio env.removeMirrorOk env.reload2Ok w2) (fun w3 =>
          seqStep (regStopStep env.regStopOk w3) (fun w4 =>
          seqStep (deleteBundleStep env.removeDirOk
              (absolutePath env.rootDir env.bundleDir) w4)
            (writeResultStep labelsBundleLoaded env.getNodeOk env.patchOk))))))

/-- Oracles and configuration for one `BundleCleaner.Run`. -/
structure CleanerEnv where
  rootDir : String
  bundleDir : String
  rm1Ok : Bool
  rm2Ok : Bool
  removeMirrorOk : Bool
  removePinOk : Bool
  reloadOk : Bool
  getNodeOk : Bool
  patchOk : Bool
  deriving Repr, DecidableEq

/-- Embedding of `BundleCleaner.cleanBundleDir` (`internal/bundle_cleaner.go` lines
161-181): removes the bundle directory, then its stale `<dir>.tmp` sibling. -/
def cleanBundleDirStep (env : CleanerEnv) (w : World) : StepOut :=
  let dir := absolutePath env.rootDir env.bundleDir
  seqStep (deleteBundleStep env.rm1Ok dir w)
    (deleteBundleStep env.rm2Ok (dir ++ ".tmp"))

/-- Embedding of `BundleCleaner.cleanCRIO` (`internal/bundle_cleaner.go` lines
191-204): removes the mirror entry and the pin entries and reloads the service;
aborts on the first failure. -/
def cleanCrioStep (removeMirrorOk removePinOk reloadOk : Bool) (w : World) : StepOut :=
  if !removeMirrorOk then
    ⟨w, [.mirrorRemove], [], .error "failed to remove mirror conf"⟩
  else
  let w1 := { w with crio := removeMirrorConf w.crio }
  if !removePinOk then
    ⟨w1, [.mirrorRemove, .pinRemove], [], .error "failed to remove pin conf"⟩
  else
  let w2 := { w1 with crio := removePinConf w1.crio }
  if !reloadOk then
    ⟨w2, [.mirrorRemove, .pinRemove, .reload], [], .error "failed to reload service"⟩
  else ⟨w2, [.mirrorRemove, .pinRemove, .reload], [], .ok ()⟩

/-- Embedding of `BundleCleaner.Run` (`internal/bundle_cleaner.go` lines 137-159):
cleans the bundle directory, cleans the runtime configuration, writes the
`bundle-cleaned` label — aborting on the first failure. -/
def cleanerRun (env : CleanerEnv) (w : World) : StepOut :=
  seqStep (cleanBundleDirStep env w) (fun w1 =>
  seqStep (cleanCrioStep env.removeMirrorOk env.removePinOk env.reloadOk w1)
    (writeResultStep labelsBundleCleaned env.getNodeOk env.patchOk))

/-- References pulled by the operations of a trace, in order. -/
def pulledRefs (ops : List LOp) : List String :=
  ops.filterMap (fun o => match o with | .pull r => some r | _ => none)

/-- Agreement of two step results on everything but the worlds they leave behind. -/
def outerEq (a b : StepOut) : Prop :=
  a.ops = b.ops ∧ a.events = b.events ∧ a.res = b.res

/-- A loader environment with its progress-annotation oracle replaced. -/
def setAnn (env : LoaderEnv) (f : String → Bool) : LoaderEnv := { env with annOk := f }

/-- Discovery pairs of the single-image fixture, in map iteration order. -/
def pairsC1 : List (String × String) := [("a", "quay.io/test/app:1")]

/-- Creator oracles of the single-image fixture: everything succeeds. -/
def creatorEnvC1 : CreatorEnv :=
  { cacheDirOk := true, mkdirOk := true,
    ocInfo := .ok ("sha256:d00d", pairsC1),
    regStartOk := true, regAddr := "localhost:5001", certsDirOk := true,
    certWriteOk := true, copyOk := fun _ => true, regStopOk := true,
    writeMetaOk := true, tarOk := true, digestWriteOk := true, manifestOk := true }

/-- Metadata the single-image fixture writes. -/
def mdC1 : Metadata :=
  { version := "4.13.4", arch := "x86_64",
    release := "quay.io/openshift-release-dev/ocp-release@sha256:d00d",
    images := ["quay.io/test/app:1"] }

/-- Discovery pairs of the two-image scenario, in the map iteration order that visits
tag `b` before tag `a` — a legitimate order for a Go map. -/
def pairsC2 : List (String × String) :=
  [("b", "quay.io/test/img-b:1"), ("a", "quay.io/test/img-a:1")]

/-- Creator oracles of the two-image scenario: everything succeeds. -/
def creatorEnvC2 : CreatorEnv :=
  { creatorEnvC1 with ocInfo := .ok ("sha256:d00d", pairsC2) }

/-- Metadata the two-image scenario writes under the `b`-first iteration order. -/
def mdC2 : Metadata :=
  { version := "4.13.4", arch := "x86_64",
    release := "quay.io/openshift-release-dev/ocp-release@sha256:d00d",
    images := ["quay.io/test/img-b:1", "quay.io/test/img-a:1"] }

/-- Start oracles under which the listener bind fails. -/
def regStartEnvC3 : RegistryStartEnv :=
  { writeCertOk := true, writeKeyOk := true, listenOk := false }

/-- Filesystem holding the registry data root and the private temporary directory. -/
def fsC3 : List String := ["/data/root", "/data/root/docker", "/tmp/cert.registry"]

/-- The registry left behind by the failed Start. -/
def registryC3 : Registry :=
  (registryStart regStartEnvC3
    (registryBuild "localhost:5001" "/data/root" "/tmp/cert.registry") fsC3).1

/-- The filesystem left behind by the failed Start. -/
def fsC3after : List String :=
  (registryStart regStartEnvC3
    (registryBuild "localhost:5001" "/data/root" "/tmp/cert.registry") fsC3).2.1

/-- A registry whose Start completed: the server exists. -/
def registryOkC3 : Registry :=
  { address := "localhost:5001", root := "/data/root", tmp := "/tmp/cert.registry",
    hasServer := true }

/-- Node-local world fixture: the bundle directory exists. -/
def worldW : World :=
  { fs := ["/var/lib/upgrade", "/var/lib/upgrade/metadata.json", "/etc/other"],
    crio := { pin := none, mirror := none }, nodeLabels := [], nodeAnn := [] }

/-- Node-local world fixture without the bundle directory. -/
def worldNoBundle : World :=
  { fs := ["/etc/other"], crio := { pin := none, mirror := none },
    nodeLabels := [], nodeAnn := [] }

/-- Metadata fixture with two payload images. -/
def mdW : Metadata :=
  { version := "4.13.4", arch := "x86_64",
    release := "quay.io/openshift-release-dev/ocp-release@sha256:d00d",
    images := ["img1", "img2"] }

/-- Loader oracles under which every operation succeeds. -/
def loaderEnvW : LoaderEnv :=
  { rootDir := "", bundleDir := "/var/lib/upgrade", statErr := none,
    readMeta := .ok mdW, regStartOk := true, regAddr := "localhost:33333",
    pinOk := true, mirrorOk := true, reload1Ok := true,
    pullOk := fun _ => true, annOk := fun _ => true,
    removeMirrorOk := true, reload2Ok := true, regStopOk := true,
    removeDirOk := true, getNodeOk := true, patchOk := true }

/-- Metadata fixture with three payload images, used for the failing-pull scenario. -/
def mdFail : Metadata :=
  { version := "4.13.4", arch := "x86_64",
    release := "quay.io/openshift-release-dev/ocp-release@sha256:d00d",
    images := ["img1", "img2", "img3"] }

/-- Loader oracles under which the pull of `img2` fails and all else succeeds. -/
def loaderEnvFail : LoaderEnv :=
  { loaderEnvW with
    readMeta := Except.ok mdFail,
    pullOk := fun r => decide (r ≠ "img2") }

/-- Cleaner oracles under which every operation succeeds. -/
def cleanerEnvW : CleanerEnv :=
  { rootDir := "", bundleDir := "/var/lib/upgrade", rm1Ok := true, rm2Ok := true,
    removeMirrorOk := true, removePinOk := true, reloadOk := true,
    getNodeOk := true, patchOk := true }

theorem seqStep_ok_iff (a : StepOut) (f : World → StepOut) :
    (seqStep a f).res = .ok () ↔ a.res = .ok () ∧ (f a.w).res = .ok () := by
  unfold seqStep
  cases h : a.res with
  | error e => simp [h]
  | ok u => cases u; simp

theorem seqStep_w_of_ok (a : StepOut) (f : World → StepOut) (h : a.res = .ok ()) :
    (seqStep a f).w = (f a.w).w := by
  unfold seqStep
  rw [h]

theorem seqStep_of_error (a : StepOut) (f : World → StepOut) (e : String)
    (h : a.res = .error e) : seqStep a f = ⟨a.w, a.ops, a.events, .error e⟩ := by
  unfold seqStep
  rw [h]

theorem seqStep_congr (a b : StepOut) (f g : World → StepOut) (hab : outerEq a b)
    (hfg : ∀ w1 w2, outerEq (f w1) (g w2)) : outerEq (seqStep a f) (seqStep b g) := by
  obtain ⟨h1, h2, h3⟩ := hab
  unfold seqStep outerEq
  cases h : a.res with
  | error e =>
    rw [h] at h3
    rw [← h3]
    simp [h1, h2, h3]
  | ok u =>
    cases u
    rw [h] at h3
    rw [← h3]
    obtain ⟨g1, g2, g3⟩ := hfg a.w b.w
    simp [h1, h2, g1, g2, g3]

theorem pullLoop_world (pullOk annOk : String → Bool) (n : Nat) (refs : List String) :
    ∀ (i : Nat) (w : World),
      (pullLoop pullOk annOk n i refs w).w.fs = w.fs ∧
      (pullLoop pullOk annOk n i refs w).w.crio = w.crio ∧
      (pullLoop pullOk annOk n i refs w).w.nodeLabels = w.nodeLabels := by
  induction refs with
  | nil => intro i w; simp [pullLoop]
  | cons r rest ih =>
    intro i w
    by_cases h : pullOk r = true
    · have hw : (reportProgress annOk (PEvent.pulled (i + 1) n) w).fs = w.fs ∧
          (reportProgress annOk (PEvent.pulled (i + 1) n) w).crio = w.crio ∧
          (reportProgress annOk (PEvent.pulled (i + 1) n) w).nodeLabels = w.nodeLabels := by
        unfold reportProgress
        split <;> simp
      obtain ⟨hw1, hw2, hw3⟩ := hw
      obtain ⟨i1, i2, i3⟩ := ih (i + 1) (reportProgress annOk (PEvent.pulled (i + 1) n) w)
      simp only [pullLoop, h, if_true]
      exact ⟨by rw [i1, hw1], by rw [i2, hw2], by rw [i3, hw3]⟩
    · simp only [pullLoop, h]
      simp

theorem pullLoop_char (pullOk annOk : String → Bool) (n : Nat) (refs : List String) :
    ∀ (i : Nat) (w : World),
      (pullLoop pullOk annOk n i refs w).events =
        (List.range (refs.takeWhile pullOk).length).map
          (fun j => PEvent.pulled (i + j + 1) n) ∧
      pulledRefs (pullLoop pullOk annOk n i refs w).ops =
        refs.take ((refs.takeWhile pullOk).length + 1) ∧
      ((pullLoop pullOk annOk n i refs w).res = .ok () ↔
        (refs.takeWhile pullOk).length = refs.length) := by
  induction refs with
  | nil => intro i w; simp [pullLoop, pulledRefs]
  | cons r rest ih =>
    intro i w
    by_cases h : pullOk r = true
    · obtain ⟨i1, i2, i3⟩ :=
        ih (i + 1) (reportProgress annOk (PEvent.pulled (i + 1) n) w)
      simp only [pullLoop, h, if_true]
      refine ⟨?_, ?_, ?_⟩
      · simp only [List.takeWhile_cons, h, if_true, List.length_cons]
        rw [List.range_succ_eq_map]
        simp only [List.map_cons, List.map_map]
        rw [i1]
        refine congrArg₂ _ rfl ?_
        apply List.map_congr_left
        intro j _
        simp only [Function.comp_apply]
        refine congrArg₂ _ ?_ rfl
        omega
      · simp only [List.takeWhile_cons, h, if_true, List.length_cons]
        simp only [pulledRefs, List.filterMap_cons] at i2 ⊢
        rw [i2]
        simp
      · simp only [List.takeWhile_cons, h, if_true, List.length_cons]
        rw [i3]
        omega
    · rw [Bool.not_eq_true] at h
      simp only [pullLoop, h, Bool.false_eq_true, if_false, List.takeWhile_cons,
        List.length_nil, List.length_cons]
      refine ⟨by simp, by simp [pulledRefs], ?_⟩
      constructor
      · intro hc
        simp at hc
      · intro hc
        omega

theorem reportProgress_world (annOk : String → Bool) (ev : PEvent) (w : World) :
    (reportProgress annOk ev w).fs = w.fs ∧ (reportProgress annOk ev w).crio = w.crio ∧
    (reportProgress annOk ev w).nodeLabels = w.nodeLabels := by
  unfold reportProgress
  split <;> simp

theorem takeWhile_length_eq_iff (p : String → Bool) (l : List String) :
    (l.takeWhile p).length = l.length ↔ ∀ a ∈ l, p a = true := by
  constructor
  · intro h
    rw [← List.takeWhile_eq_self_iff]
    exact (List.takeWhile_prefix p).eq_of_length h
  · intro h
    rw [List.takeWhile_eq_self_iff.mpr h]

theorem populateCrio_char (pullOk annOk : String → Bool) (rel : String)
    (refs : List String) (w : World) (hrel : pullOk rel = true) :
    (populateCrio pullOk annOk rel refs w).events =
      PEvent.releasePulled :: (List.range (refs.takeWhile pullOk).length).map
        (fun j => PEvent.pulled (j + 1) refs.length) ∧
    pulledRefs (populateCrio pullOk annOk rel refs w).ops =
      rel :: refs.take ((refs.takeWhile pullOk).length + 1) ∧
    ((populateCrio pullOk annOk rel refs w).res = .ok () ↔
      ∀ r ∈ refs, pullOk r = true) := by
  obtain ⟨c1, c2, c3⟩ := pullLoop_char pullOk annOk refs.length refs 0
    (reportProgress annOk PEvent.releasePulled w)
  simp only [populateCrio, hrel, if_true]
  refine ⟨?_, ?_, ?_⟩
  · simp only [List.cons.injEq, true_and]
    rw [c1]
    apply List.map_congr_left
    intro j _
    simp
  · simp only [pulledRefs, List.filterMap_cons] at c2 ⊢
    simp only [c2]
  · rw [c3, takeWhile_length_eq_iff]

theorem populateCrio_fail (pullOk annOk : String → Bool) (rel : String)
    (refs : List String) (w : World) (hrel : pullOk rel = false) :
    populateCrio pullOk annOk rel refs w =
      ⟨w, [.pull rel], [], .error ("failed to pull " ++ rel)⟩ := by
  simp [populateCrio, hrel]

theorem populateCrio_world (pullOk annOk : String → Bool) (rel : String)
    (refs : List String) (w : World) :
    (populateCrio pullOk annOk rel refs w).w.fs = w.fs ∧
    (populateCrio pullOk annOk rel refs w).w.crio = w.crio ∧
    (populateCrio pullOk annOk rel refs w).w.nodeLabels = w.nodeLabels := by
  unfold populateCrio
  by_cases hrel : pullOk rel = true
  · simp only [hrel, if_true]
    obtain ⟨r1, r2, r3⟩ := reportProgress_world annOk PEvent.releasePulled w
    obtain ⟨l1, l2, l3⟩ := pullLoop_world pullOk annOk refs.length refs 0
      (reportProgress annOk PEvent.releasePulled w)
    exact ⟨by rw [l1, r1], by rw [l2, r2], by rw [l3, r3]⟩
  · rw [Bool.not_eq_true] at hrel
    simp [hrel]

theorem pullLoop_outer (pullOk f g : String → Bool) (n : Nat) (refs : List String) :
    ∀ (i : Nat) (w1 w2 : World),
      outerEq (pullLoop pullOk f n i refs w1) (pullLoop pullOk g n i refs w2) := by
  induction refs with
  | nil => intro i w1 w2; simp [pullLoop, outerEq]
  | cons r rest ih =>
    intro i w1 w2
    by_cases h : pullOk r = true
    · obtain ⟨i1, i2, i3⟩ := ih (i + 1) (reportProgress f (PEvent.pulled (i + 1) n) w1)
        (reportProgress g (PEvent.pulled (i + 1) n) w2)
      simp only [pullLoop, h, if_true, outerEq]
      exact ⟨by rw [i1], by rw [i2], i3⟩
    · rw [Bool.not_eq_true] at h
      simp [pullLoop, h, outerEq]

theorem populateCrio_outer (pullOk f g : String → Bool) (rel : String)
    (refs : List String) (w1 w2 : World) :
    outerEq (populateCrio pullOk f rel refs w1) (populateCrio pullOk g rel refs w2) := by
  by_cases h : pullOk rel = true
  · obtain ⟨i1, i2, i3⟩ := pullLoop_outer pullOk f g refs.length refs 0
      (reportProgress f PEvent.releasePulled w1) (reportProgress g PEvent.releasePulled w2)
    simp only [populateCrio, h, if_true, outerEq]
    exact ⟨by rw [i1], by rw [i2], i3⟩
  · rw [Bool.not_eq_true] at h
    simp [populateCrio, h, outerEq]

theorem configureCrio_outer (p m rl : Bool) (addr : String) (refs : List String)
    (w1 w2 : World) :
    outerEq (configureCrio p m rl addr refs w1) (configureCrio p m rl addr refs w2) := by
  cases p <;> cases m <;> cases rl <;> simp [configureCrio, outerEq]

theorem deconfigureCrio_outer (rm rl : Bool) (w1 w2 : World) :
    outerEq (deconfigureCrio rm rl w1) (deconfigureCrio rm rl w2) := by
  cases rm <;> cases rl <;> simp [deconfigureCrio, outerEq]

theorem regStopStep_outer (ok : Bool) (w1 w2 : World) :
    outerEq (regStopStep ok w1) (regStopStep ok w2) := by
  cases ok <;> simp [regStopStep, outerEq]

theorem deleteBundleStep_outer (ok : Bool) (dir : String) (w1 w2 : World) :
    outerEq (deleteBundleStep ok dir w1) (deleteBundleStep ok dir w2) := by
  cases ok <;> simp [deleteBundleStep, outerEq]

theorem writeResultStep_outer (label : String) (g p : Bool) (w1 w2 : World) :
    outerEq (writeResultStep label g p w1) (writeResultStep label g p w2) := by
  cases g <;> cases p <;> simp [writeResultStep, outerEq]

theorem configureCrio_ok (addr : String) (refs : List String) (w : World) :
    configureCrio true true true addr refs w =
      ⟨{ w with crio := { pin := some refs, mirror := some (addr, refs) } },
        [.pinCreate refs, .mirrorCreate addr refs, .reload], [], .ok ()⟩ := by
  simp [configureCrio, createPinConf, createMirrorConf]

theorem configureCrio_ok_iff (p m rl : Bool) (addr : String) (refs : List String)
    (w : World) :
    (configureCrio p m rl addr refs w).res = .ok () ↔ p = true ∧ m = true ∧ rl = true := by
  cases p <;> cases m <;> cases rl <;> simp [configureCrio]

theorem deconfigureCrio_ok (w : World) :
    deconfigureCrio true true w =
      ⟨{ w with crio := { pin := w.crio.pin, mirror := none } },
        [.mirrorRemove, .reload], [], .ok ()⟩ := by
  simp [deconfigureCrio, removeMirrorConf]

theorem deconfigureCrio_ok_iff (rm rl : Bool) (w : World) :
    (deconfigureCrio rm rl w).res = .ok () ↔ rm = true ∧ rl = true := by
  cases rm <;> cases rl <;> simp [deconfigureCrio]

theorem regStopStep_ok_iff (ok : Bool) (w : World) :
    (regStopStep ok w).res = .ok () ↔ ok = true := by
  cases ok <;> simp [regStopStep]

theorem deleteBundleStep_ok_iff (ok : Bool) (dir : String) (w : World) :
    (deleteBundleStep ok dir w).res = .ok () ↔ ok = true := by
  cases ok <;> simp [deleteBundleStep]

theorem writeResultStep_ok_iff (label : String) (g p : Bool) (w : World) :
    (writeResultStep label g p w).res = .ok () ↔ g = true ∧ p = true := by
  cases g <;> cases p <;> simp [writeResultStep]

theorem populateCrio_ok_iff (pullOk annOk : String → Bool) (rel : String)
    (refs : List String) (w : World) :
    (populateCrio pullOk annOk rel refs w).res = .ok () ↔
      pullOk rel = true ∧ ∀ r ∈ refs, pullOk r = true := by
  by_cases hrel : pullOk rel = true
  · rw [(populateCrio_char pullOk annOk rel refs w hrel).2.2]
    simp [hrel]
  · rw [Bool.not_eq_true] at hrel
    rw [populateCrio_fail pullOk annOk rel refs w hrel]
    simp [hrel]

theorem regStopStep_ok (w : World) :
    regStopStep true w = ⟨w, [.regStop], [], .ok ()⟩ := by
  simp [regStopStep]

theorem deleteBundleStep_ok (dir : String) (w : World) :
    deleteBundleStep true dir w =
      ⟨{ w with fs := removeAllFS dir w.fs }, [.removeDir dir], [], .ok ()⟩ := by
  simp [deleteBundleStep]

theorem writeResultStep_ok (label : String) (w : World) :
    writeResultStep label true true w =
      ⟨{ w with nodeLabels := setEntry w.nodeLabels label "true" },
        [.nodeGet, .labelPatch label], [], .ok ()⟩ := by
  simp [writeResultStep]

theorem loaderRun_ok_iff (env : LoaderEnv) (w : World) (md : Metadata)
    (hmd : env.readMeta = .ok md) :
    (loaderRun env w).res = .ok () ↔
      (env.statErr = none ∧ absolutePath env.rootDir env.bundleDir ∈ w.fs ∧
       env.regStartOk = true ∧ env.pinOk = true ∧ env.mirrorOk = true ∧
       env.reload1Ok = true ∧ env.pullOk md.release = true ∧
       (∀ r ∈ md.images, env.pullOk r = true) ∧ env.removeMirrorOk = true ∧
       env.reload2Ok = true ∧ env.regStopOk = true ∧ env.removeDirOk = true ∧
       env.getNodeOk = true ∧ env.patchOk = true) := by
  unfold loaderRun checkBundleDir
  cases h1 : env.statErr with
  | some e => simp [h1]
  | none =>
    simp only [hmd]
    by_cases h2 : absolutePath env.rootDir env.bundleDir ∈ w.fs
    · have hdec : decide (absolutePath env.rootDir env.bundleDir ∈ w.fs) = true := by
        simpa using h2
      simp only [hdec, Bool.not_true, Bool.false_eq_true, if_false]
      cases h4 : env.regStartOk with
      | false => simp
      | true =>
        simp only [Bool.not_true, Bool.false_eq_true, if_false]
        rw [seqStep_ok_iff, seqStep_ok_iff, seqStep_ok_iff, seqStep_ok_iff,
          seqStep_ok_iff, seqStep_ok_iff]
        rw [configureCrio_ok_iff, populateCrio_ok_iff, deconfigureCrio_ok_iff,
          regStopStep_ok_iff, deleteBundleStep_ok_iff, writeResultStep_ok_iff]
        simp only [h2, true_and]
        tauto
    · have hdec : decide (absolutePath env.rootDir env.bundleDir ∈ w.fs) = false := by
        simpa using h2
      simp [hdec, h2]

theorem loaderRun_w_of_ok (env : LoaderEnv) (w : World) (md : Metadata)
    (hmd : env.readMeta = .ok md) (hok : (loaderRun env w).res = .ok ()) :
    (loaderRun env w).w.crio = { pin := some md.images, mirror := none } ∧
    (loaderRun env w).w.fs =
      removeAllFS (absolutePath env.rootDir env.bundleDir) w.fs ∧
    (loaderRun env w).w.nodeLabels = setEntry w.nodeLabels labelsBundleLoaded "true" := by
  obtain ⟨h1, h2, h4, h5, h6, h7, h8, h9, h10, h11, h12, h13, h14, h15⟩ :=
    (loaderRun_ok_iff env w md hmd).mp hok
  have hdec : decide (absolutePath env.rootDir env.bundleDir ∈ w.fs) = true := by
    simpa using h2
  have hP := populateCrio_world env.pullOk env.annOk md.release md.images
    { w with crio := { pin := some md.images, mirror := some (env.regAddr, md.images) } }
  have hPok : (populateCrio env.pullOk env.annOk md.release md.images
      { w with crio := { pin := some md.images,
                         mirror := some (env.regAddr, md.images) } }).res = .ok () :=
    (populateCrio_ok_iff _ _ _ _ _).mpr ⟨h8, h9⟩
  simp only [loaderRun, checkBundleDir, h1, hmd, hdec, h4, Bool.not_true,
    Bool.false_eq_true, if_false]
  rw [seqStep_w_of_ok _ _ rfl]
  simp only [h5, h6, h7, h10, h11, h12, h13, h14, h15]
  rw [configureCrio_ok]
  rw [seqStep_w_of_ok _ _ rfl]
  simp only []
  rw [seqStep_w_of_ok _ _ hPok]
  rw [seqStep_w_of_ok _ _ ((deconfigureCrio_ok_iff true true _).mpr ⟨rfl, rfl⟩)]
  rw [deconfigureCrio_ok]
  simp only []
  rw [regStopStep_ok]
  rw [seqStep_w_of_ok _ _ rfl]
  simp only []
  rw [deleteBundleStep_ok]
  rw [seqStep_w_of_ok _ _ rfl]
  simp only []
  rw [writeResultStep_ok]
  obtain ⟨hPf, hPc, hPl⟩ := hP
  refine ⟨?_, ?_, ?_⟩
  · simp [hPc]
  · simp [hPf]
  · simp [hPl]

theorem seqStep_of_ok (a : StepOut) (f : World → StepOut) (h : a.res = .ok ()) :
    seqStep a f = ⟨(f a.w).w, a.ops ++ (f a.w).ops, a.events ++ (f a.w).events,
      (f a.w).res⟩ := by
  unfold seqStep
  rw [h]

theorem pulledRefs_append (a b : List LOp) :
    pulledRefs (a ++ b) = pulledRefs a ++ pulledRefs b := by
  simp [pulledRefs]

theorem loaderTail_quiet (a b c d e f : Bool) (label dir : String) (w : World) :
    (seqStep (deconfigureCrio a b w) (fun w3 =>
      seqStep (regStopStep c w3) (fun w4 =>
      seqStep (deleteBundleStep d dir w4)
        (writeResultStep label e f)))).events = [] ∧
    pulledRefs (seqStep (deconfigureCrio a b w) (fun w3 =>
      seqStep (regStopStep c w3) (fun w4 =>
      seqStep (deleteBundleStep d dir w4)
        (writeResultStep label e f)))).ops = [] := by
  cases a <;> cases b <;> cases c <;> cases d <;> cases e <;> cases f <;>
    simp [seqStep, deconfigureCrio, regStopStep, deleteBundleStep, writeResultStep,
      pulledRefs]

theorem loaderRun_populate_phase (env : LoaderEnv) (w : World) (md : Metadata)
    (hmd : env.readMeta = .ok md) (hstat : env.statErr = none)
    (hin : absolutePath env.rootDir env.bundleDir ∈ w.fs)
    (hreg : env.regStartOk = true) (hpin : env.pinOk = true)
    (hmir : env.mirrorOk = true) (hrl1 : env.reload1Ok = true) :
    (loaderRun env w).events =
      (populateCrio env.pullOk env.annOk md.release md.images
        { w with crio := { pin := some md.images,
                           mirror := some (env.regAddr, md.images) } }).events ∧
    pulledRefs (loaderRun env w).ops =
      pulledRefs (populateCrio env.pullOk env.annOk md.release md.images
        { w with crio := { pin := some md.images,
                           mirror := some (env.regAddr, md.images) } }).ops ∧
    (∀ e, (populateCrio env.pullOk env.annOk md.release md.images
        { w with crio := { pin := some md.images,
                           mirror := some (env.regAddr, md.images) } }).res = .error e →
      (loaderRun env w).res = .error e) := by
  have hdec : decide (absolutePath env.rootDir env.bundleDir ∈ w.fs) = true := by
    simpa using hin
  simp only [loaderRun, checkBundleDir, hstat, hmd, hdec, hreg, Bool.not_true,
    Bool.false_eq_true, if_false]
  rw [seqStep_of_ok _ _ rfl]
  simp only [hpin, hmir, hrl1]
  rw [configureCrio_ok]
  rw [seqStep_of_ok _ _ rfl]
  simp only []
  set wCfg : World :=
    { w with crio := { pin := some md.images,
                       mirror := some (env.regAddr, md.images) } } with hwCfg
  set P := populateCrio env.pullOk env.annOk md.release md.images wCfg with hPdef
  cases hPres : P.res with
  | ok u =>
    cases u
    rw [seqStep_of_ok _ _ hPres]
    obtain ⟨ht1, ht2⟩ := loaderTail_quiet env.removeMirrorOk env.reload2Ok
      env.regStopOk env.removeDirOk env.getNodeOk env.patchOk labelsBundleLoaded
      (absolutePath env.rootDir env.bundleDir) P.w
    refine ⟨?_, ?_, ?_⟩
    · simp only [List.nil_append, List.append_nil, ht1]
    · simp only [pulledRefs_append, ht2]
      simp [pulledRefs]
    · intro e he
      simp at he
  | error e =>
    rw [seqStep_of_error _ _ e hPres]
    refine ⟨by simp, ?_, ?_⟩
    · simp [pulledRefs_append, pulledRefs]
    · intro e2 he2
      simpa using he2

theorem cleanCrioStep_ok_iff (m p r : Bool) (w : World) :
    (cleanCrioStep m p r w).res = .ok () ↔ m = true ∧ p = true ∧ r = true := by
  cases m <;> cases p <;> cases r <;> simp [cleanCrioStep]

theorem cleanCrioStep_ok (w : World) :
    cleanCrioStep true true true w =
      ⟨{ w with crio := { pin := none, mirror := none } },
        [.mirrorRemove, .pinRemove, .reload], [], .ok ()⟩ := by
  simp [cleanCrioStep, removeMirrorConf, removePinConf]

theorem cleanCrioStep_outer (m p r : Bool) (w1 w2 : World) :
    outerEq (cleanCrioStep m p r w1) (cleanCrioStep m p r w2) := by
  cases m <;> cases p <;> cases r <;> simp [cleanCrioStep, outerEq]

theorem cleanBundleDirStep_ok_iff (env : CleanerEnv) (w : World) :
    (cleanBundleDirStep env w).res = .ok () ↔
      env.rm1Ok = true ∧ env.rm2Ok = true := by
  unfold cleanBundleDirStep
  rw [seqStep_ok_iff, deleteBundleStep_ok_iff, deleteBundleStep_ok_iff]

theorem cleanBundleDirStep_ok (env : CleanerEnv) (w : World) (h1 : env.rm1Ok = true)
    (h2 : env.rm2Ok = true) :
    cleanBundleDirStep env w =
      ⟨{ w with fs := removeAllFS ((absolutePath env.rootDir env.bundleDir) ++ ".tmp") (removeAllFS (absolutePath env.rootDir env.bundleDir) w.fs) },
        [.removeDir (absolutePath env.rootDir env.bundleDir),
         .removeDir ((absolutePath env.rootDir env.bundleDir) ++ ".tmp")], [],
        .ok ()⟩ := by
  unfold cleanBundleDirStep
  rw [h1, h2]
  simp [deleteBundleStep, seqStep]

theorem cleanBundleDirStep_outer (env : CleanerEnv) (w1 w2 : World) :
    outerEq (cleanBundleDirStep env w1) (cleanBundleDirStep env w2) := by
  unfold cleanBundleDirStep
  apply seqStep_congr _ _ _ _ (deleteBundleStep_outer _ _ w1 w2)
  intro w3 w4
  exact deleteBundleStep_outer _ _ w3 w4

theorem cleanerRun_ok_iff (env : CleanerEnv) (w : World) :
    (cleanerRun env w).res = .ok () ↔
      env.rm1Ok = true ∧ env.rm2Ok = true ∧ env.removeMirrorOk = true ∧
      env.removePinOk = true ∧ env.reloadOk = true ∧ env.getNodeOk = true ∧
      env.patchOk = true := by
  unfold cleanerRun
  rw [seqStep_ok_iff, seqStep_ok_iff, cleanBundleDirStep_ok_iff, cleanCrioStep_ok_iff,
    writeResultStep_ok_iff]
  tauto

theorem cleanerRun_w_of_ok (env : CleanerEnv) (w : World)
    (hok : (cleanerRun env w).res = .ok ()) :
    (cleanerRun env w).w =
      { fs := removeAllFS ((absolutePath env.rootDir env.bundleDir) ++ ".tmp") (removeAllFS (absolutePath env.rootDir env.bundleDir) w.fs),
        crio := { pin := none, mirror := none },
        nodeLabels := setEntry w.nodeLabels labelsBundleCleaned "true",
        nodeAnn := w.nodeAnn } := by
  obtain ⟨h1, h2, h3, h4, h5, h6, h7⟩ := (cleanerRun_ok_iff env w).mp hok
  unfold cleanerRun
  rw [cleanBundleDirStep_ok env w h1 h2]
  rw [seqStep_w_of_ok _ _ rfl]
  simp only [h3, h4, h5, h6, h7]
  rw [cleanCrioStep_ok]
  rw [seqStep_w_of_ok _ _ rfl]
  simp only []
  rw [writeResultStep_ok]

theorem cleanerRun_outer (env : CleanerEnv) (w1 w2 : World) :
    outerEq (cleanerRun env w1) (cleanerRun env w2) := by
  unfold cleanerRun
  apply seqStep_congr _ _ _ _ (cleanBundleDirStep_outer env w1 w2)
  intro w3 w4
  apply seqStep_congr _ _ _ _ (cleanCrioStep_outer _ _ _ w3 w4)
  intro w5 w6
  exact writeResultStep_outer _ _ _ w5 w6

theorem filter_filter_idem {α : Type} (p q : α → Bool) (l : List α) :
    ((((l.filter q).filter p).filter q).filter p) = (l.filter q).filter p := by
  simp only [List.filter_filter]
  apply List.filter_congr
  intro a _
  cases hp : p a <;> cases hq : q a <;> simp

theorem removeAllFS_pair_idem (d t : String) (fs : List String) :
    removeAllFS t (removeAllFS d (removeAllFS t (removeAllFS d fs))) =
      removeAllFS t (removeAllFS d fs) := by
  unfold removeAllFS
  exact filter_filter_idem _ _ fs

theorem setEntry_idem (m : List (String × String)) (k v : String) :
    setEntry (setEntry m k v) k v = setEntry m k v := by
  unfold setEntry
  by_cases h : m.any (fun p => decide (p.1 = k)) = true
  · simp only [h, if_true]
    have hany : (m.map (fun p => if p.1 = k then (k, v) else p)).any
        (fun p => decide (p.1 = k)) = true := by
      rw [List.any_map]
      rw [List.any_eq_true] at h ⊢
      obtain ⟨p, hp, hpk⟩ := h
      refine ⟨p, hp, ?_⟩
      simp only [decide_eq_true_eq] at hpk
      simp [Function.comp, hpk]
    simp only [hany, if_true, List.map_map]
    apply List.map_congr_left
    intro p _
    simp only [Function.comp]
    by_cases hpk : p.1 = k
    · simp [hpk]
    · simp [hpk]
  · rw [Bool.not_eq_true] at h
    simp only [h, Bool.false_eq_true, if_false]
    have hany : (m ++ [(k, v)]).any (fun p => decide (p.1 = k)) = true := by
      simp
    simp only [hany, if_true, List.map_append]
    have hmap : m.map (fun p => if p.1 = k then (k, v) else p) = m := by
      conv_rhs => rw [← List.map_id m]
      apply List.map_congr_left
      intro p hp
      have hd : ¬ (p.1 = k) := by
        rw [List.any_eq_false] at h
        simpa using h p hp
      simp [hd]
    rw [hmap]
    simp

theorem creatorRun_metadata (env : CreatorEnv) (version arch : String) (m : Metadata)
    (dg : String) (pairs : List (String × String))
    (hoc : env.ocInfo = .ok (dg, pairs))
    (hm : (creatorRun env version arch).metadataWritten = some m) :
    m = { version := version, arch := arch,
          release := bundleCreatorReleaseRepo ++ "@" ++ dg,
          images := mapsValues pairs } := by
  unfold creatorRun findImages at hm
  rw [hoc] at hm
  cases h1 : env.cacheDirOk <;> rw [h1] at hm
  · simp at hm
  · cases h2 : env.mkdirOk <;> rw [h2] at hm
    · simp at hm
    · simp only [Bool.not_true, Bool.false_eq_true, if_false] at hm
      cases h3 : env.regStartOk <;> rw [h3] at hm
      · simp at hm
      · simp only [Bool.not_true, Bool.false_eq_true, if_false] at hm
        cases hdl : (downloadImages env (bundleCreatorReleaseRepo ++ "@" ++ dg)
            pairs).res with
        | error e =>
          rw [hdl] at hm
          simp at hm
        | ok u =>
          cases u
          rw [hdl] at hm
          cases h4 : env.regStopOk <;> rw [h4] at hm
          · simp at hm
          · simp only [Bool.not_true, Bool.false_eq_true, if_false] at hm
            cases h5 : env.writeMetaOk <;> rw [h5] at hm
            · simp at hm
            · simp only [Bool.not_true, Bool.false_eq_true, if_false] at hm
              cases h6 : env.tarOk <;> rw [h6] at hm
              all_goals cases h7 : env.digestWriteOk <;> rw [h7] at hm
              all_goals cases h8 : env.manifestOk <;> rw [h8] at hm
              all_goals simp at hm
              all_goals exact hm.symm

theorem downloadPayload_srcs (copyOk : String → Bool) (addr : String)
    (images : List (String × String)) (tags : List String)
    (hok : (downloadPayload copyOk addr images tags).res = .ok ()) :
    (downloadPayload copyOk addr images tags).copies.map Prod.fst =
      tags.map (goMapGet images) := by
  induction tags with
  | nil => simp [downloadPayload]
  | cons t rest ih =>
    cases hd : dstRef addr (goMapGet images t) with
    | none => simp [downloadPayload, hd] at hok
    | some dst =>
      by_cases hc : copyOk (goMapGet images t) = true
      · simp only [downloadPayload, hd, hc, if_true] at hok ⊢
        simp only [List.map_cons, List.cons.injEq, true_and]
        exact ih hok
      · rw [Bool.not_eq_true] at hc
        simp [downloadPayload, hd, hc] at hok

theorem downloadImages_srcs (env : CreatorEnv) (release : String)
    (images : List (String × String))
    (hok : (downloadImages env release images).res = .ok ()) :
    (downloadImages env release images).copies.map Prod.fst =
      release :: (slicesSort (mapsKeys images)).map (goMapGet images) := by
  by_cases h1 : env.certsDirOk = true
  · by_cases h2 : env.certWriteOk = true
    · cases hd : dstRef env.regAddr release with
      | none => simp [downloadImages, h1, h2, hd] at hok
      | some dst =>
        by_cases hc : env.copyOk release = true
        · simp only [downloadImages, h1, h2, hd, hc, Bool.not_true,
            Bool.false_eq_true, if_false, if_true] at hok ⊢
          simp only [List.map_cons, List.cons.injEq, true_and]
          exact downloadPayload_srcs env.copyOk env.regAddr images
            (slicesSort (mapsKeys images)) hok
        · rw [Bool.not_eq_true] at hc
          simp [downloadImages, h1, h2, hd, hc] at hok
    · rw [Bool.not_eq_true] at h2
      simp [downloadImages, h1, h2] at hok
  · rw [Bool.not_eq_true] at h1
    simp [downloadImages, h1] at hok

theorem creatorRun_ok_char (env : CreatorEnv) (version arch : String)
    (dg : String) (pairs : List (String × String))
    (hoc : env.ocInfo = .ok (dg, pairs))
    (hres : (creatorRun env version arch).res = .ok ()) :
    (creatorRun env version arch).metadataWritten =
      some { version := version, arch := arch,
             release := bundleCreatorReleaseRepo ++ "@" ++ dg,
             images := mapsValues pairs } ∧
    (creatorRun env version arch).downloads.map Prod.fst =
      (bundleCreatorReleaseRepo ++ "@" ++ dg) ::
        (slicesSort (mapsKeys pairs)).map (goMapGet pairs) := by
  by_cases h1 : env.cacheDirOk = true
  case neg =>
    rw [Bool.not_eq_true] at h1
    simp [creatorRun, h1] at hres
  by_cases h2 : env.mkdirOk = true
  case neg =>
    rw [Bool.not_eq_true] at h2
    simp [creatorRun, h1, h2] at hres
  by_cases h3 : env.regStartOk = true
  case neg =>
    rw [Bool.not_eq_true] at h3
    simp [creatorRun, findImages, hoc, h1, h2, h3] at hres
  cases hdl : (downloadImages env (bundleCreatorReleaseRepo ++ "@" ++ dg) pairs).res with
  | error e => simp [creatorRun, findImages, hoc, h1, h2, h3, hdl] at hres
  | ok u =>
    cases u
    by_cases h4 : env.regStopOk = true
    case neg =>
      rw [Bool.not_eq_true] at h4
      simp [creatorRun, findImages, hoc, h1, h2, h3, hdl, h4] at hres
    by_cases h5 : env.writeMetaOk = true
    case neg =>
      rw [Bool.not_eq_true] at h5
      simp [creatorRun, findImages, hoc, h1, h2, h3, hdl, h4, h5] at hres
    by_cases h6 : env.tarOk = true
    case neg =>
      rw [Bool.not_eq_true] at h6
      simp [creatorRun, findImages, hoc, h1, h2, h3, hdl, h4, h5, h6] at hres
    by_cases h7 : env.digestWriteOk = true
    case neg =>
      rw [Bool.not_eq_true] at h7
      simp [creatorRun, findImages, hoc, h1, h2, h3, hdl, h4, h5, h6, h7] at hres
    by_cases h8 : env.manifestOk = true
    case neg =>
      rw [Bool.not_eq_true] at h8
      simp [creatorRun, findImages, hoc, h1, h2, h3, hdl, h4, h5, h6, h7, h8] at hres
    refine ⟨?_, ?_⟩
    · simp [creatorRun, findImages, hoc, h1, h2, h3, hdl, h4, h5, h6, h7, h8]
    · have hgoal : (creatorRun env version arch).downloads =
          (downloadImages env (bundleCreatorReleaseRepo ++ "@" ++ dg) pairs).copies := by
        simp [creatorRun, findImages, hoc, h1, h2, h3, hdl, h4, h5, h6, h7, h8]
      rw [hgoal]
      exact downloadImages_srcs env _ pairs hdl

theorem registryStart_no_server_on_listen_failure (env : RegistryStartEnv)
    (address root tmp : String) (fs : List String) (hl : env.listenOk = false) :
    (registryStart env (registryBuild address root tmp) fs).1.hasServer = false := by
  unfold registryStart registryBuild
  cases hc : env.writeCertOk <;> cases hk : env.writeKeyOk <;> simp [hl]

theorem pathWithin_self (d : String) : pathWithin d d = true := by
  simp [pathWithin]

theorem removeAllFS_not_mem_self (d : String) (fs : List String) :
    d ∉ removeAllFS d fs := by
  intro h
  rw [removeAllFS, List.mem_filter] at h
  rw [pathWithin_self d] at h
  simp at h

theorem removeAllFS_mem_iff (d p : String) (fs : List String)
    (h : pathWithin d p = false) : p ∈ removeAllFS d fs ↔ p ∈ fs := by
  rw [removeAllFS, List.mem_filter, h]
  simp

theorem hexVal_hexDigit (n : Nat) (h : n < 16) : hexVal (hexDigit n) = n := by
  interval_cases n <;> rfl

theorem hexDigit_mem (n : Nat) : hexDigit n ∈ hexDigits := by
  unfold hexDigit
  by_cases h : n < 16
  · interval_cases n <;> decide
  · have : hexDigits.getD n '0' = '0' := by
      apply List.getD_eq_default
      simp only [hexDigits]
      simp only [List.length_cons, List.length_nil]
      omega
    rw [this]
    decide

theorem hexDecode_encode (bs : List Nat) (h : ∀ b ∈ bs, b < 256) :
    hexDecode (hexEncodeToString bs) = bs := by
  unfold hexDecode hexEncodeToString
  show decodeHexPairs ((bs.map hexEncodeByte).flatten) = bs
  induction bs with
  | nil => rfl
  | cons b rest ih =>
    have hb : b < 256 := h b (List.mem_cons_self b rest)
    have hrest : ∀ x ∈ rest, x < 256 := fun x hx => h x (List.mem_cons_of_mem b hx)
    simp only [List.map_cons, List.flatten_cons, hexEncodeByte]
    simp only [List.cons_append, List.nil_append, decodeHexPairs]
    simp only [List.append_eq, List.nil_append]
    rw [ih hrest]
    have h1 : hexVal (hexDigit (b / 16)) = b / 16 := hexVal_hexDigit _ (by omega)
    have h2 : hexVal (hexDigit (b % 16)) = b % 16 := hexVal_hexDigit _ (by omega)
    rw [h1, h2]
    simp only [List.cons.injEq, and_true]
    omega

theorem hexEncode_length (bs : List Nat) :
    (hexEncodeToString bs).length = 2 * bs.length := by
  unfold hexEncodeToString
  show ((bs.map hexEncodeByte).flatten).length = 2 * bs.length
  induction bs with
  | nil => rfl
  | cons b rest ih =>
    simp only [List.map_cons, List.flatten_cons, List.length_append, ih]
    simp [hexEncodeByte]
    omega

theorem hexEncode_lowercase (bs : List Nat) :
    ∀ c ∈ (hexEncodeToString bs).data, c ∈ hexDigits := by
  unfold hexEncodeToString
  intro c hc
  show c ∈ hexDigits
  have : c ∈ (bs.map hexEncodeByte).flatten := hc
  rw [List.mem_flatten] at this
  obtain ⟨l, hl, hcl⟩ := this
  rw [List.mem_map] at hl
  obtain ⟨b, _, hb⟩ := hl
  subst hb
  simp only [hexEncodeByte, List.mem_cons, List.not_mem_nil, or_false] at hcl
  rcases hcl with h1 | h1 <;> rw [h1] <;> exact hexDigit_mem _

theorem takeWhile_append_all {p : Char → Bool} (l r : List Char)
    (h : ∀ c ∈ l, p c = true) :
    List.takeWhile p (l ++ r) = l ++ List.takeWhile p r := by
  induction l with
  | nil => simp
  | cons x xs ih =>
    have hx : p x = true := h x (List.mem_cons_self x xs)
    simp only [List.cons_append, List.takeWhile_cons, hx, if_true]
    exact congrArg (List.cons x) (ih (fun c hc => h c (List.mem_cons_of_mem x hc)))

theorem filepathBase_append (a b : String) (hb : ∀ c ∈ b.data, c ≠ '/') :
    filepathBase (a ++ "/" ++ b) = b := by
  unfold filepathBase
  have hdata : (a ++ "/" ++ b).data = (a.data ++ ['/']) ++ b.data := by
    rw [String.data_append, String.data_append]
  rw [hdata, List.reverse_append]
  have hall : ∀ c ∈ b.data.reverse, (fun c => decide (c ≠ '/')) c = true := by
    intro c hc
    rw [List.mem_reverse] at hc
    simp [hb c hc]
  rw [takeWhile_append_all b.data.reverse ((a.data ++ ['/']).reverse) hall]
  have hslash : List.takeWhile (fun c => decide (c ≠ '/'))
      ((a.data ++ ['/']).reverse) = [] := by
    rw [List.reverse_append]
    simp [List.takeWhile_cons]
  rw [hslash, List.append_nil, List.reverse_reverse]


/-- C1 counterexample: a run whose discovery returns the single pair
`("a", "quay.io/test/app:1")` succeeds with every copy succeeding, but the `images`
list written to metadata.json holds the SOURCE reference, not the destination
reference rewritten to the local registry — the claimed set equality fails in both
directions. -/
theorem C1_counterexample :
    (creatorRun creatorEnvC1 "4.13.4" "x86_64").res = .ok () ∧
    (creatorRun creatorEnvC1 "4.13.4" "x86_64").metadataWritten = some mdC1 ∧
    "quay.io/test/app:1" ∈ mdC1.images ∧
    "quay.io/test/app:1" ∉ destRefs "localhost:5001" pairsC1 ∧
    "localhost:5001/test/app:1" ∈ destRefs "localhost:5001" pairsC1 ∧
    "localhost:5001/test/app:1" ∉ mdC1.images := by
  decide

/-- C1 (amended): for every creator run in which release discovery returns `pairs` and
the metadata file is written, the recorded `images` list is exactly the SOURCE
references of the discovered pairs — one entry per pair, in map iteration order; the
destination references serve only as copy targets. -/
theorem C1_images_are_source_refs (env : CreatorEnv) (version arch : String)
    (m : Metadata) (dg : String) (pairs : List (String × String))
    (hoc : env.ocInfo = .ok (dg, pairs))
    (hm : (creatorRun env version arch).metadataWritten = some m) :
    m.images = mapsValues pairs ∧
    m.images.length = pairs.length ∧
    (∀ x, x ∈ m.images ↔ ∃ t, (t, x) ∈ pairs) := by
  have hmeta := creatorRun_metadata env version arch m dg pairs hoc hm
  subst hmeta
  refine ⟨rfl, by simp [mapsValues], ?_⟩
  intro x
  simp only [mapsValues, List.mem_map]
  constructor
  · rintro ⟨⟨t, y⟩, hp, he⟩
    refine ⟨t, ?_⟩
    simp only at he
    rw [← he]
    exact hp
  · rintro ⟨t, ht⟩
    exact ⟨(t, x), ht, rfl⟩

/-- C1 witness: the amended statement at the single-image fixture. -/
theorem C1_images_are_source_refs_witness :
    mdC1.images = mapsValues pairsC1 ∧
    mdC1.images.length = pairsC1.length ∧
    (∀ x, x ∈ mdC1.images ↔ ∃ t, (t, x) ∈ pairsC1) :=
  C1_images_are_source_refs creatorEnvC1 "4.13.4" "x86_64" mdC1 "sha256:d00d"
    pairsC1 rfl (by decide)

/-- C2 counterexample: Go map iteration order is indeterminate, and a legitimate run
that iterates the map of the spec scenario (version 4.13.4, arch x86_64, tags a and b)
in the order [b, a] succeeds: the `images` list has length 2 but is NOT ordered by
ascending tag — the image of tag `a` is not first — while the download traversal is
tag-sorted (a before b). -/
theorem C2_counterexample :
    (creatorRun creatorEnvC2 "4.13.4" "x86_64").res = .ok () ∧
    (creatorRun creatorEnvC2 "4.13.4" "x86_64").metadataWritten = some mdC2 ∧
    mdC2.images.length = 2 ∧
    mdC2.images = ["quay.io/test/img-b:1", "quay.io/test/img-a:1"] ∧
    mdC2.images ≠ ["quay.io/test/img-a:1", "quay.io/test/img-b:1"] ∧
    mdC2.images ≠ destRefs "localhost:5001"
      [("a", "quay.io/test/img-a:1"), ("b", "quay.io/test/img-b:1")] ∧
    (creatorRun creatorEnvC2 "4.13.4" "x86_64").downloads.map Prod.fst =
      ["quay.io/openshift-release-dev/ocp-release@sha256:d00d",
       "quay.io/test/img-a:1", "quay.io/test/img-b:1"] := by
  decide

/-- C2 (amended): the metadata `images` list holds the discovery map's values in
(indeterminate) map iteration order — one entry per discovered tag, so the two-tag
scenario yields length 2 — while ascending tag order governs only the download
traversal, which visits the release first and then the tags in sorted order. -/
theorem C2_images_iteration_order (env : CreatorEnv) (version arch : String)
    (dg : String) (pairs : List (String × String))
    (hoc : env.ocInfo = .ok (dg, pairs))
    (hres : (creatorRun env version arch).res = .ok ()) :
    (creatorRun env version arch).metadataWritten =
      some { version := version, arch := arch,
             release := bundleCreatorReleaseRepo ++ "@" ++ dg,
             images := mapsValues pairs } ∧
    (mapsValues pairs).length = pairs.length ∧
    (creatorRun env version arch).downloads.map Prod.fst =
      (bundleCreatorReleaseRepo ++ "@" ++ dg) ::
        (slicesSort (mapsKeys pairs)).map (goMapGet pairs) ∧
    (slicesSort (mapsKeys pairs)).Pairwise strLe := by
  obtain ⟨ha, hb⟩ := creatorRun_ok_char env version arch dg pairs hoc hres
  refine ⟨ha, by simp [mapsValues], hb, ?_⟩
  exact List.sorted_insertionSort strLe (mapsKeys pairs)

/-- C2 witness: the amended statement at the two-tag scenario with the `b`-first
iteration order. -/
theorem C2_images_iteration_order_witness :
    (creatorRun creatorEnvC2 "4.13.4" "x86_64").metadataWritten =
      some { version := "4.13.4", arch := "x86_64",
             release := bundleCreatorReleaseRepo ++ "@" ++ "sha256:d00d",
             images := mapsValues pairsC2 } ∧
    (mapsValues pairsC2).length = pairsC2.length ∧
    (creatorRun creatorEnvC2 "4.13.4" "x86_64").downloads.map Prod.fst =
      (bundleCreatorReleaseRepo ++ "@" ++ "sha256:d00d") ::
        (slicesSort (mapsKeys pairsC2)).map (goMapGet pairsC2) ∧
    (slicesSort (mapsKeys pairsC2)).Pairwise strLe :=
  C2_images_iteration_order creatorEnvC2 "4.13.4" "x86_64" "sha256:d00d" pairsC2
    rfl (by decide)

/-- C3 counterexample: when Start fails at the listener bind it leaves no server
behind; the Stop that follows fails at the shutdown of the missing server and returns
before removing the private temporary directory, which is therefore still present —
refuting the claim that Stop removes it even after a failed Start. -/
theorem C3_counterexample :
    (registryStart regStartEnvC3
      (registryBuild "localhost:5001" "/data/root" "/tmp/cert.registry") fsC3).2.2 ≠
        .ok () ∧
    registryC3.hasServer = false ∧
    registryC3.tmp = "/tmp/cert.registry" ∧
    (registryStop true registryC3 fsC3after).2 ≠ .ok () ∧
    "/tmp/cert.registry" ∈ (registryStop true registryC3 fsC3after).1 := by
  decide

/-- C3 (amended): Stop removes the private temporary directory — and leaves every
path outside it, the data root included, untouched — exactly when the server exists
and shuts down within the deadline; when Start never created the server, or the
shutdown fails, Stop returns an error and removes nothing. -/
theorem C3_stop_removes_tmp (shutdownOk : Bool) (r : Registry) (fs : List String) :
    (r.hasServer = true → shutdownOk = true →
      (registryStop shutdownOk r fs).2 = .ok () ∧
      r.tmp ∉ (registryStop shutdownOk r fs).1 ∧
      (∀ p, pathWithin r.tmp p = false →
        (p ∈ (registryStop shutdownOk r fs).1 ↔ p ∈ fs))) ∧
    ((r.hasServer = false ∨ shutdownOk = false) →
      (registryStop shutdownOk r fs).1 = fs ∧
      (registryStop shutdownOk r fs).2 ≠ .ok ()) := by
  constructor
  · intro hs hok
    simp only [registryStop, hs, hok, Bool.not_true, Bool.false_eq_true, if_false]
    exact ⟨by simp, removeAllFS_not_mem_self _ _,
      fun p hp => removeAllFS_mem_iff _ _ _ hp⟩
  · rintro (hs | hok)
    · simp [registryStop, hs]
    · cases hsv : r.hasServer <;> simp [registryStop, hsv, hok]

/-- C3 witness: the amended statement at a live registry with a clean shutdown. -/
theorem C3_stop_removes_tmp_witness :
    (registryStop true registryOkC3 fsC3).2 = .ok () ∧
    "/tmp/cert.registry" ∉ (registryStop true registryOkC3 fsC3).1 ∧
    ("/data/root" ∈ (registryStop true registryOkC3 fsC3).1 ↔ "/data/root" ∈ fsC3) :=
  ⟨((C3_stop_removes_tmp true registryOkC3 fsC3).1 rfl rfl).1,
   ((C3_stop_removes_tmp true registryOkC3 fsC3).1 rfl rfl).2.1,
   ((C3_stop_removes_tmp true registryOkC3 fsC3).1 rfl rfl).2.2 "/data/root"
     (by decide)⟩

/-- C4: after a successful loader run the runtime's mirror entry is absent while the
pin entry records exactly the bundle's images; after a successful cleaner run both the
mirror entry and the pin entry are absent. -/
theorem C4_pin_mirror_lifecycle :
    (∀ (env : LoaderEnv) (w : World) (md : Metadata), env.readMeta = .ok md →
      (loaderRun env w).res = .ok () →
      (loaderRun env w).w.crio.mirror = none ∧
      (loaderRun env w).w.crio.pin = some md.images) ∧
    (∀ (env : CleanerEnv) (w : World), (cleanerRun env w).res = .ok () →
      (cleanerRun env w).w.crio.mirror = none ∧
      (cleanerRun env w).w.crio.pin = none) := by
  constructor
  · intro env w md hmd hok
    obtain ⟨hc, _, _⟩ := loaderRun_w_of_ok env w md hmd hok
    rw [hc]
    exact ⟨rfl, rfl⟩
  · intro env w hok
    have hw := cleanerRun_w_of_ok env w hok
    rw [hw]
    exact ⟨rfl, rfl⟩

/-- C4 witness: the pin/mirror state after the all-success loader and cleaner runs on
the concrete fixtures. -/
theorem C4_pin_mirror_lifecycle_witness :
    ((loaderRun loaderEnvW worldW).w.crio.mirror = none ∧
     (loaderRun loaderEnvW worldW).w.crio.pin = some mdW.images) ∧
    ((cleanerRun cleanerEnvW worldW).w.crio.mirror = none ∧
     (cleanerRun cleanerEnvW worldW).w.crio.pin = none) :=
  ⟨C4_pin_mirror_lifecycle.1 loaderEnvW worldW mdW rfl (by decide),
   C4_pin_mirror_lifecycle.2 cleanerEnvW worldW (by decide)⟩

/-- C5: in every loader run that reaches the image pulls, the payload progress
counters strictly increase; the events are the release event followed by one
`Pulled k of n` event per successful payload pull (none for a failed one); the pulls
attempted are the release followed by the payload prefix up to and including the
first failing image — nothing after it; and when some payload pull fails, the run
ends in an error. -/
theorem C5_progress_and_abort (env : LoaderEnv) (w : World) (md : Metadata)
    (hmd : env.readMeta = .ok md) (hstat : env.statErr = none)
    (hin : absolutePath env.rootDir env.bundleDir ∈ w.fs)
    (hreg : env.regStartOk = true) (hpin : env.pinOk = true)
    (hmir : env.mirrorOk = true) (hrl1 : env.reload1Ok = true)
    (hrel : env.pullOk md.release = true) :
    ((loaderRun env w).events.filterMap counterOf).Pairwise (· < ·) ∧
    (loaderRun env w).events =
      PEvent.releasePulled ::
        (List.range ((md.images.takeWhile env.pullOk).length)).map
          (fun j => PEvent.pulled (j + 1) md.images.length) ∧
    pulledRefs (loaderRun env w).ops =
      md.release :: md.images.take ((md.images.takeWhile env.pullOk).length + 1) ∧
    ((md.images.takeWhile env.pullOk).length < md.images.length →
      ∃ e, (loaderRun env w).res = .error e) := by
  obtain ⟨hev, hops, hfail⟩ :=
    loaderRun_populate_phase env w md hmd hstat hin hreg hpin hmir hrl1
  obtain ⟨pc1, pc2, pc3⟩ := populateCrio_char env.pullOk env.annOk md.release
    md.images
    { w with crio := { pin := some md.images,
                       mirror := some (env.regAddr, md.images) } } hrel
  refine ⟨?_, ?_, ?_, ?_⟩
  · rw [hev, pc1]
    have hcalc : List.filterMap counterOf (PEvent.releasePulled ::
        (List.range ((md.images.takeWhile env.pullOk).length)).map
          (fun j => PEvent.pulled (j + 1) md.images.length)) =
        (List.range ((md.images.takeWhile env.pullOk).length)).map
          (fun j => j + 1) := by
      simp only [List.filterMap_cons, counterOf, List.filterMap_map]
      have hcomp : (counterOf ∘ fun j => PEvent.pulled (j + 1) md.images.length) =
          (some ∘ fun j : Nat => j + 1) := by
        funext j
        rfl
      rw [hcomp, List.filterMap_eq_map]
    rw [hcalc]
    refine List.Pairwise.map _ ?_ (List.pairwise_lt_range _)
    intro a b hab
    omega
  · rw [hev, pc1]
  · rw [hops, pc2]
  · intro hlt
    cases hp : (populateCrio env.pullOk env.annOk md.release md.images
        { w with crio := { pin := some md.images,
                           mirror := some (env.regAddr, md.images) } }).res with
    | ok u =>
      cases u
      obtain ⟨_, hall⟩ := (populateCrio_ok_iff env.pullOk env.annOk md.release
        md.images _).mp hp
      have := (takeWhile_length_eq_iff env.pullOk md.images).mpr hall
      omega
    | error e => exact ⟨e, hfail e hp⟩

/-- C5 witness: the loader run whose second payload pull fails at the three-image
fixture. -/
theorem C5_progress_and_abort_witness :
    ((loaderRun loaderEnvFail worldW).events.filterMap counterOf).Pairwise (· < ·) ∧
    (loaderRun loaderEnvFail worldW).events =
      PEvent.releasePulled ::
        (List.range ((mdFail.images.takeWhile loaderEnvFail.pullOk).length)).map
          (fun j => PEvent.pulled (j + 1) mdFail.images.length) ∧
    pulledRefs (loaderRun loaderEnvFail worldW).ops =
      mdFail.release ::
        mdFail.images.take
          ((mdFail.images.takeWhile loaderEnvFail.pullOk).length + 1) ∧
    ((mdFail.images.takeWhile loaderEnvFail.pullOk).length < mdFail.images.length →
      ∃ e, (loaderRun loaderEnvFail worldW).res = .error e) :=
  C5_progress_and_abort loaderEnvFail worldW mdFail rfl rfl (by decide) rfl rfl rfl
    rfl (by decide)

/-- C6: a loader run against a bundle directory that does not exist fails immediately:
no operation is attempted — in particular no registry start, no pin or mirror
reconfiguration and no label write — no progress is emitted, and the node-local state
is unchanged. -/
theorem C6_missing_bundle_dir (env : LoaderEnv) (w : World)
    (hstat : env.statErr = none)
    (habs : absolutePath env.rootDir env.bundleDir ∉ w.fs) :
    (loaderRun env w).res =
      .error ("bundle directory " ++ env.bundleDir ++ " does not exist") ∧
    (loaderRun env w).w = w ∧
    (loaderRun env w).ops = [] ∧
    (loaderRun env w).events = [] ∧
    LOp.regStart ∉ (loaderRun env w).ops ∧
    (∀ refs, LOp.pinCreate refs ∉ (loaderRun env w).ops) ∧
    (∀ a refs, LOp.mirrorCreate a refs ∉ (loaderRun env w).ops) ∧
    (∀ k, LOp.labelPatch k ∉ (loaderRun env w).ops) := by
  have hdec : decide (absolutePath env.rootDir env.bundleDir ∈ w.fs) = false := by
    simpa using habs
  simp [loaderRun, checkBundleDir, hstat, hdec]

/-- C6 witness: the all-success loader oracles against a world without the bundle
directory. -/
theorem C6_missing_bundle_dir_witness :
    (loaderRun loaderEnvW worldNoBundle).res =
      .error ("bundle directory " ++ loaderEnvW.bundleDir ++ " does not exist") ∧
    (loaderRun loaderEnvW worldNoBundle).w = worldNoBundle ∧
    (loaderRun loaderEnvW worldNoBundle).ops = [] ∧
    (loaderRun loaderEnvW worldNoBundle).events = [] ∧
    LOp.regStart ∉ (loaderRun loaderEnvW worldNoBundle).ops ∧
    (∀ refs, LOp.pinCreate refs ∉ (loaderRun loaderEnvW worldNoBundle).ops) ∧
    (∀ a refs, LOp.mirrorCreate a refs ∉ (loaderRun loaderEnvW worldNoBundle).ops) ∧
    (∀ k, LOp.labelPatch k ∉ (loaderRun loaderEnvW worldNoBundle).ops) :=
  C6_missing_bundle_dir loaderEnvW worldNoBundle rfl (by decide)

/-- C7: the cleaner is idempotent — if a run succeeds, running it again from the state
it produced succeeds as well, leaves the world (filesystem, runtime configuration,
node record) exactly as it was, and attempts the same operations. -/
theorem C7_cleaner_idempotent (env : CleanerEnv) (w : World)
    (hok : (cleanerRun env w).res = .ok ()) :
    (cleanerRun env (cleanerRun env w).w).res = .ok () ∧
    (cleanerRun env (cleanerRun env w).w).w = (cleanerRun env w).w ∧
    (cleanerRun env (cleanerRun env w).w).ops = (cleanerRun env w).ops := by
  have hflags := (cleanerRun_ok_iff env w).mp hok
  have hok2 : (cleanerRun env (cleanerRun env w).w).res = .ok () :=
    (cleanerRun_ok_iff env _).mpr hflags
  have hw1 := cleanerRun_w_of_ok env w hok
  have hw2 := cleanerRun_w_of_ok env _ hok2
  refine ⟨hok2, ?_, (cleanerRun_outer env (cleanerRun env w).w w).1⟩
  rw [hw2, hw1]
  simp only [World.mk.injEq]
  exact ⟨removeAllFS_pair_idem _ _ w.fs, trivial,
    setEntry_idem w.nodeLabels labelsBundleCleaned "true", trivial⟩

/-- C7 witness: the cleaner applied twice to the concrete fixture world. -/
theorem C7_cleaner_idempotent_witness :
    (cleanerRun cleanerEnvW (cleanerRun cleanerEnvW worldW).w).res = .ok () ∧
    (cleanerRun cleanerEnvW (cleanerRun cleanerEnvW worldW).w).w =
      (cleanerRun cleanerEnvW worldW).w ∧
    (cleanerRun cleanerEnvW (cleanerRun cleanerEnvW worldW).w).ops =
      (cleanerRun cleanerEnvW worldW).ops :=
  C7_cleaner_idempotent cleanerEnvW worldW (by decide)

/-- C8: a progress-annotation patch failure never changes a loader run's result, the
operations it attempts, or the progress it emits — it is logged and swallowed —
whereas the run succeeds exactly when every structural operation (bundle check,
metadata read, registry start, pin and mirror creation, reloads, every pull, mirror
removal, registry stop, bundle deletion, node get and final label patch) succeeds:
any structural failure aborts the run with an error. -/
theorem C8_annotation_never_aborts (env : LoaderEnv) (w : World) (f : String → Bool)
    (md : Metadata) (hmd : env.readMeta = .ok md) :
    ((loaderRun (setAnn env f) w).res = (loaderRun env w).res ∧
     (loaderRun (setAnn env f) w).ops = (loaderRun env w).ops ∧
     (loaderRun (setAnn env f) w).events = (loaderRun env w).events) ∧
    ((loaderRun env w).res = .ok () ↔
      (env.statErr = none ∧ absolutePath env.rootDir env.bundleDir ∈ w.fs ∧
       env.regStartOk = true ∧ env.pinOk = true ∧ env.mirrorOk = true ∧
       env.reload1Ok = true ∧ env.pullOk md.release = true ∧
       (∀ r ∈ md.images, env.pullOk r = true) ∧ env.removeMirrorOk = true ∧
       env.reload2Ok = true ∧ env.regStopOk = true ∧ env.removeDirOk = true ∧
       env.getNodeOk = true ∧ env.patchOk = true)) := by
  refine ⟨?_, loaderRun_ok_iff env w md hmd⟩
  have hs1 : (setAnn env f).statErr = env.statErr := rfl
  have hs2 : (setAnn env f).rootDir = env.rootDir := rfl
  have hs3 : (setAnn env f).bundleDir = env.bundleDir := rfl
  have hs4 : (setAnn env f).readMeta = env.readMeta := rfl
  have hs5 : (setAnn env f).regStartOk = env.regStartOk := rfl
  have hs6 : (setAnn env f).pinOk = env.pinOk := rfl
  have hs7 : (setAnn env f).mirrorOk = env.mirrorOk := rfl
  have hs8 : (setAnn env f).reload1Ok = env.reload1Ok := rfl
  have hs9 : (setAnn env f).regAddr = env.regAddr := rfl
  have hs10 : (setAnn env f).pullOk = env.pullOk := rfl
  have hs11 : (setAnn env f).removeMirrorOk = env.removeMirrorOk := rfl
  have hs12 : (setAnn env f).reload2Ok = env.reload2Ok := rfl
  have hs13 : (setAnn env f).regStopOk = env.regStopOk := rfl
  have hs14 : (setAnn env f).removeDirOk = env.removeDirOk := rfl
  have hs15 : (setAnn env f).getNodeOk = env.getNodeOk := rfl
  have hs16 : (setAnn env f).patchOk = env.patchOk := rfl
  have hann : (setAnn env f).annOk = f := rfl
  have h : outerEq (loaderRun (setAnn env f) w) (loaderRun env w) := by
    unfold loaderRun checkBundleDir
    simp only [hs1, hs2, hs3, hs4, hs5, hs6, hs7, hs8, hs9, hs10, hs11, hs12, hs13,
      hs14, hs15, hs16, hann, hmd]
    cases h1 : env.statErr with
    | some e => exact ⟨rfl, rfl, rfl⟩
    | none =>
      cases hdec : decide (absolutePath env.rootDir env.bundleDir ∈ w.fs) with
      | false => exact ⟨rfl, rfl, rfl⟩
      | true =>
        simp only [Bool.not_true, Bool.false_eq_true, if_false]
        cases h4 : env.regStartOk with
        | false => exact ⟨rfl, rfl, rfl⟩
        | true =>
          simp only [Bool.not_true, Bool.false_eq_true, if_false]
          apply seqStep_congr _ _ _ _ ⟨rfl, rfl, rfl⟩
          intro w1 w2
          apply seqStep_congr _ _ _ _
            (configureCrio_outer env.pinOk env.mirrorOk env.reload1Ok env.regAddr
              md.images w1 w2)
          intro w3 w4
          apply seqStep_congr _ _ _ _
            (populateCrio_outer env.pullOk f env.annOk md.release md.images w3 w4)
          intro w5 w6
          apply seqStep_congr _ _ _ _
            (deconfigureCrio_outer env.removeMirrorOk env.reload2Ok w5 w6)
          intro w7 w8
          apply seqStep_congr _ _ _ _ (regStopStep_outer env.regStopOk w7 w8)
          intro w9 w10
          apply seqStep_congr _ _ _ _
            (deleteBundleStep_outer env.removeDirOk
              (absolutePath env.rootDir env.bundleDir) w9 w10)
          intro w11 w12
          exact writeResultStep_outer labelsBundleLoaded env.getNodeOk env.patchOk
            w11 w12
  exact ⟨h.2.2, h.1, h.2.1⟩

/-- C8 witness: the statement at the all-success fixture, silencing every annotation
patch. -/
theorem C8_annotation_never_aborts_witness :
    ((loaderRun (setAnn loaderEnvW (fun _ => false)) worldW).res =
        (loaderRun loaderEnvW worldW).res ∧
     (loaderRun (setAnn loaderEnvW (fun _ => false)) worldW).ops =
        (loaderRun loaderEnvW worldW).ops ∧
     (loaderRun (setAnn loaderEnvW (fun _ => false)) worldW).events =
        (loaderRun loaderEnvW worldW).events) ∧
    ((loaderRun loaderEnvW worldW).res = .ok () ↔
      (loaderEnvW.statErr = none ∧
       absolutePath loaderEnvW.rootDir loaderEnvW.bundleDir ∈ worldW.fs ∧
       loaderEnvW.regStartOk = true ∧ loaderEnvW.pinOk = true ∧
       loaderEnvW.mirrorOk = true ∧ loaderEnvW.reload1Ok = true ∧
       loaderEnvW.pullOk mdW.release = true ∧
       (∀ r ∈ mdW.images, loaderEnvW.pullOk r = true) ∧
       loaderEnvW.removeMirrorOk = true ∧ loaderEnvW.reload2Ok = true ∧
       loaderEnvW.regStopOk = true ∧ loaderEnvW.removeDirOk = true ∧
       loaderEnvW.getNodeOk = true ∧ loaderEnvW.patchOk = true)) :=
  C8_annotation_never_aborts loaderEnvW worldW (fun _ => false) mdW rfl

/-- C9: the digest sidecar content produced for a bundle is exactly the lowercase
64-hex SHA-256 of the archive bytes, two spaces, the archive base name
`upgrade-<version>-<arch>.tar` and a newline; decoding the hex recovers the hash, so
the digest recorded in the file equals the SHA-256 of the archive. -/
theorem C9_digest_sidecar (hash : List Nat) (outputDir version arch : String)
    (hlen : hash.length = 32) (hbytes : ∀ b ∈ hash, b < 256)
    (hv : ∀ c ∈ version.data, c ≠ '/') (ha : ∀ c ∈ arch.data, c ≠ '/') :
    writeDigestContent hash (bundleFile outputDir version arch) =
      hexEncodeToString hash ++ "  " ++
        ("upgrade-" ++ version ++ "-" ++ arch ++ ".tar") ++ "\n" ∧
    (hexEncodeToString hash).length = 64 ∧
    (∀ c ∈ (hexEncodeToString hash).data, c ∈ hexDigits) ∧
    hexDecode (hexEncodeToString hash) = hash := by
  refine ⟨?_, ?_, hexEncode_lowercase hash, hexDecode_encode hash hbytes⟩
  · have hassoc : bundleFile outputDir version arch =
        outputDir ++ "/" ++ (("upgrade-" ++ version ++ "-" ++ arch) ++ ".tar") := by
      unfold bundleFile outputBase filepathJoin
      rw [String.append_assoc]
    have hbase : filepathBase (bundleFile outputDir version arch) =
        "upgrade-" ++ version ++ "-" ++ arch ++ ".tar" := by
      rw [hassoc]
      rw [filepathBase_append]
      intro c hc
      simp only [String.data_append, List.mem_append] at hc
      have hlit1 : ∀ x ∈ ("upgrade-" : String).data, x ≠ '/' := by decide
      have hlit2 : ∀ x ∈ ("-" : String).data, x ≠ '/' := by decide
      have hlit3 : ∀ x ∈ (".tar" : String).data, x ≠ '/' := by decide
      rcases hc with (((h1 | h2) | h3) | h4) | h5
      · exact hlit1 c h1
      · exact hv c h2
      · exact hlit2 c h3
      · exact ha c h4
      · exact hlit3 c h5
    unfold writeDigestContent
    rw [hbase]
  · rw [hexEncode_length, hlen]

/-- C9 witness: the digest sidecar content for a concrete 32-byte hash and the
`4.13.4`/`x86_64` bundle name. -/
theorem C9_digest_sidecar_witness :
    writeDigestContent (List.range 32) (bundleFile "/out" "4.13.4" "x86_64") =
      hexEncodeToString (List.range 32) ++ "  " ++
        ("upgrade-" ++ "4.13.4" ++ "-" ++ "x86_64" ++ ".tar") ++ "\n" ∧
    (hexEncodeToString (List.range 32)).length = 64 ∧
    (∀ c ∈ (hexEncodeToString (List.range 32)).data, c ∈ hexDigits) ∧
    hexDecode (hexEncodeToString (List.range 32)) = List.range 32 :=
  C9_digest_sidecar (List.range 32) "/out" "4.13.4" "x86_64" (by decide) (by decide)
    (by decide) (by decide)

/-- C10: the release image pull is reported with the fixed message `Pulled release
image` and carries no counter; the payload counter ranges over 1..n with n the number
of entries of the metadata images list — the release image is not counted. -/
theorem C10_release_message_uncounted (pullOk annOk : String → Bool) (rel : String)
    (refs : List String) (w : World)
    (hrel : pullOk rel = true) (hall : ∀ r ∈ refs, pullOk r = true) :
    (populateCrio pullOk annOk rel refs w).events =
      PEvent.releasePulled ::
        (List.range refs.length).map (fun j => PEvent.pulled (j + 1) refs.length) ∧
    renderEvent PEvent.releasePulled = "Pulled release image" ∧
    counterOf PEvent.releasePulled = none ∧
    (∀ k n : Nat, renderEvent (PEvent.pulled k n) =
      "Pulled " ++ toString k ++ " of " ++ toString n ++ " images") ∧
    ((populateCrio pullOk annOk rel refs w).events.filterMap counterOf).length =
      refs.length := by
  obtain ⟨pc1, _, _⟩ := populateCrio_char pullOk annOk rel refs w hrel
  have hk : refs.takeWhile pullOk = refs := List.takeWhile_eq_self_iff.mpr hall
  rw [hk] at pc1
  refine ⟨pc1, rfl, rfl, fun k n => rfl, ?_⟩
  rw [pc1]
  simp only [List.filterMap_cons, counterOf, List.filterMap_map]
  have hcomp : (counterOf ∘ fun j => PEvent.pulled (j + 1) refs.length) =
      (some ∘ fun j : Nat => j + 1) := by
    funext j
    rfl
  rw [hcomp, List.filterMap_eq_map]
  simp

/-- C10 witness: the populate phase of the all-success fixture. -/
theorem C10_release_message_uncounted_witness :
    (populateCrio loaderEnvW.pullOk loaderEnvW.annOk mdW.release mdW.images
        worldW).events =
      PEvent.releasePulled ::
        (List.range mdW.images.length).map
          (fun j => PEvent.pulled (j + 1) mdW.images.length) ∧
    renderEvent PEvent.releasePulled = "Pulled release image" ∧
    counterOf PEvent.releasePulled = none ∧
    (∀ k n : Nat, renderEvent (PEvent.pulled k n) =
      "Pulled " ++ toString k ++ " of " ++ toString n ++ " images") ∧
    ((populateCrio loaderEnvW.pullOk loaderEnvW.annOk mdW.release mdW.images
        worldW).events.filterMap counterOf).length = mdW.images.length :=
  C10_release_message_uncounted loaderEnvW.pullOk loaderEnvW.annOk mdW.release
    mdW.images worldW rfl (by decide)

end UpgradeTool
